import Mathlib

set_option autoImplicit false

/-!
Verification of the file-to-dataframe normalization, cleaning, statistics and
chart-encoding core of the TDSproj2 repository (shallow embedding of
`src/utils/data_processor.py`, `backend/src/agents/data_analyst.py` and
`chart_generator.py`).

Tables are modelled column-major: a table is a list of named, typed columns,
each holding a list of optional values (`none` is the pandas missing marker
NaN/NaT). Rational numbers stand for the floating-point values of the source.
-/

namespace TDS

/-- A cell value: numeric, string, or date (pandas float/object/datetime). -/
inductive Val where
  | num (q : ℚ)
  | str (s : String)
  | date (d : Int)
deriving DecidableEq, Repr

/-- pandas column dtypes distinguished by the source code
(`object`, `category`, numeric dtypes, `datetime64`). -/
inductive DType where
  | obj
  | cat
  | numeric
  | datetime
deriving DecidableEq, Repr

/-- A named column: dtype plus the cell list (`none` = missing/NaN). -/
structure Col where
  name : String
  dtype : DType
  values : List (Option Val)
deriving DecidableEq, Repr

/-- A dataframe: an ordered list of columns. -/
structure Table where
  cols : List Col
deriving DecidableEq, Repr

/-- `len(df)`: the row count (length of the first column; 0 for no columns). -/
def Table.nrows (t : Table) : Nat :=
  (t.cols.head?.map (fun c => c.values.length)).getD 0

/-- Column lookup by name (`df[name]`), first match. -/
def Table.lookupCol (t : Table) (c : String) : Option Col :=
  t.cols.find? (fun col => col.name = c)

/-- Well-formedness: unique column names and all columns of equal length
(the Table invariant of the data model). -/
def Table.Wf (t : Table) : Prop :=
  (t.cols.map Col.name).Nodup ∧ ∀ c ∈ t.cols, c.values.length = t.nrows

instance (t : Table) : Decidable t.Wf := by
  unfold Table.Wf; infer_instance

/-- `df.drop(columns=[c])`. -/
def Table.dropCol (t : Table) (c : String) : Table :=
  ⟨t.cols.filter (fun col => col.name ≠ c)⟩

/-- `df[c] = vs`: replace the named column's values in place. -/
def Table.setColVals (t : Table) (c : String) (vs : List (Option Val)) : Table :=
  ⟨t.cols.map (fun col => if col.name = c then { col with values := vs } else col)⟩

/-- `df[c] = vs` also updating the dtype (type conversion assignment). -/
def Table.setColTyped (t : Table) (c : String) (d : DType) (vs : List (Option Val)) : Table :=
  ⟨t.cols.map (fun col => if col.name = c then { col with dtype := d, values := vs } else col)⟩

/-- Boolean row-mask filtering (`df[mask]`): every column keeps the rows whose
mask entry is `true`. -/
def maskFilter (mask : List Bool) (vs : List (Option Val)) : List (Option Val) :=
  ((vs.zip mask).filter (fun p => p.2)).map (fun p => p.1)

/-- `df[mask]` applied to the whole table. -/
def Table.filterRows (t : Table) (mask : List Bool) : Table :=
  ⟨t.cols.map (fun col => { col with values := maskFilter mask col.values })⟩

/-- The present (non-missing) values of a cell list (`series.dropna()`). -/
def presentVals (vs : List (Option Val)) : List Val :=
  vs.filterMap id

/-- `series.isnull().sum()`: number of missing cells. -/
def missingCount (vs : List (Option Val)) : Nat :=
  (vs.filter (fun v => v = none)).length

/-- Digit run to a natural number. -/
def digitsToNat (ds : List Char) : Nat :=
  ds.foldl (fun a c => a * 10 + (c.toNat - 48)) 0

/-- Model of `pd.to_numeric` on a single decimal string: optional surrounding
spaces, optional sign, digits with an optional fractional part. Returns `none`
(NaN under `errors='coerce'`) when the string is not numeric. -/
def parseNumeric (s : String) : Option ℚ :=
  let cs := ((s.toList.dropWhile (fun c => c = ' ')).reverse.dropWhile
    (fun c => c = ' ')).reverse
  let signed : Bool × List Char :=
    match cs with
    | '-' :: t => (true, t)
    | '+' :: t => (false, t)
    | _ => (false, cs)
  let ip := signed.2.takeWhile Char.isDigit
  let rest := signed.2.dropWhile Char.isDigit
  let mk : ℚ → Option ℚ := fun q => if signed.1 then some (-q) else some q
  match rest with
  | [] => if ip.isEmpty then none else mk (digitsToNat ip)
  | '.' :: fp =>
    if fp.all Char.isDigit ∧ (ip ≠ [] ∨ fp ≠ []) then
      mk ((digitsToNat ip : ℚ) + (digitsToNat fp : ℚ) / ((10 : ℚ) ^ fp.length))
    else none
  | _ => none

/-- `str(value)` as applied by `astype(str)`; a missing cell prints as `"nan"`.
Rationals with denominator 1 print as integers (the only case the repository's
string-typed columns exercise). -/
def valToStr : Val → String
  | Val.num q => if q.den = 1 then toString q.num else toString q.num ++ "/" ++ toString q.den
  | Val.str s => s
  | Val.date d => toString d

/-- `astype(str)` on a cell. -/
def cellToStr : Option Val → String
  | some v => valToStr v
  | none => "nan"

/-- The numeric entries of a cell list (`series.dropna()` on a numeric column). -/
def numVals (vs : List (Option Val)) : List ℚ :=
  vs.filterMap (fun o => match o with | some (Val.num q) => some q | _ => none)

/-- Strict order pandas uses to sort values ascending (all columns the
repository feeds to `mode()` hold values of one kind). -/
def valLt : Val → Val → Bool
  | Val.num a, Val.num b => decide (a < b)
  | Val.str a, Val.str b => decide (a < b)
  | Val.date a, Val.date b => decide (a < b)
  | Val.num _, _ => true
  | Val.str _, Val.date _ => true
  | _, _ => false

/-- `series.mode()[0]`: the smallest of the most frequent non-missing values;
`none` when the series has no non-missing value (empty `mode()`). -/
def modeVal (vs : List (Option Val)) : Option Val :=
  let pres := presentVals vs
  let cnt : Val → Nat := fun v => (pres.filter (fun w => w = v)).length
  let m := (pres.map cnt).foldl max 0
  let best := pres.filter (fun v => cnt v = m)
  best.foldl
    (fun acc v =>
      match acc with
      | none => some v
      | some w => some (if valLt v w then v else w))
    none

/-- Stable insertion of one element into a sorted list. -/
def insertLe {α : Type} (le : α → α → Bool) (x : α) : List α → List α
  | [] => [x]
  | y :: ys => if le x y then x :: y :: ys else y :: insertLe le x ys

/-- Ascending stable sort (the model of pandas/numpy value sorting). -/
def sortLe {α : Type} (le : α → α → Bool) (xs : List α) : List α :=
  xs.foldr (insertLe le) []

/-- `series.median()` over the non-missing values: middle of the sorted list,
or the average of the two middles for even length. -/
def medianQ (xs : List ℚ) : ℚ :=
  let s := sortLe (fun a b => decide (a ≤ b)) xs
  let n := s.length
  if n = 0 then 0
  else if n % 2 = 1 then s.getD (n / 2) 0
  else (s.getD (n / 2 - 1) 0 + s.getD (n / 2) 0) / 2

/-- `series.fillna(v)`. -/
def fillMissing (vs : List (Option Val)) (v : Val) : List (Option Val) :=
  vs.map (fun c => match c with | none => some v | some w => some w)

/-- `series.fillna(method='ffill')`: propagate the nearest prior value. -/
def ffillVals (vs : List (Option Val)) : List (Option Val) :=
  (vs.foldl
    (fun (acc : List (Option Val) × Option Val) c =>
      match c with
      | some v => (acc.1 ++ [some v], some v)
      | none => (acc.1 ++ [acc.2], acc.2))
    ([], none)).1

/-- `series.fillna(method='bfill')`: propagate the nearest subsequent value. -/
def bfillVals (vs : List (Option Val)) : List (Option Val) :=
  (ffillVals vs.reverse).reverse

/-- One iteration of the column loop of `DataProcessor._handle_missing_values`:
skip clean columns; under `auto` drop a column whose missing fraction exceeds
0.5, fill object/category columns with the mode (literal `'Unknown'` when the
mode is empty) and other columns with the median; under `drop` remove the rows
missing in this column; forward/backward fill propagate neighbours. -/
def hmStep (strategy : String) (t : Table) (c : String) : Table :=
  match t.lookupCol c with
  | none => t
  | some col =>
    if missingCount col.values = 0 then t
    else if strategy = "auto" then
      if (missingCount col.values : ℚ) / (t.nrows : ℚ) > 1/2 then t.dropCol c
      else if col.dtype = DType.obj ∨ col.dtype = DType.cat then
        t.setColVals c (fillMissing col.values ((modeVal col.values).getD (Val.str "Unknown")))
      else
        t.setColVals c (fillMissing col.values (Val.num (medianQ (numVals col.values))))
    else if strategy = "drop" then
      t.filterRows (col.values.map (fun v => v ≠ none))
    else if strategy = "forward_fill" then
      t.setColVals c (ffillVals col.values)
    else if strategy = "backward_fill" then
      t.setColVals c (bfillVals col.values)
    else t

/-- `DataProcessor._handle_missing_values`: iterate the column loop over the
column names present at entry. -/
def handleMissingValues (t : Table) (strategy : String) : Table :=
  (t.cols.map Col.name).foldl (hmStep strategy) t

/-- Prefix match of a digit shape (`'d'` is a digit, anything else literal):
the model of `re.match` for the three date regexes. -/
def matchShape : List Char → List Char → Bool
  | [], _ => true
  | _ :: _, [] => false
  | 'd' :: sh, c :: rest => c.isDigit && matchShape sh rest
  | ch :: sh, c :: rest => (c = ch) && matchShape sh rest

/-- One of the three literal date patterns matches a prefix of the string
(`YYYY-MM-DD`, `MM/DD/YYYY`, `MM-DD-YYYY`). -/
def isDateLike (s : String) : Bool :=
  matchShape "dddd-dd-dd".toList s.toList ||
    matchShape "dd/dd/dddd".toList s.toList ||
    matchShape "dd-dd-dddd".toList s.toList

/-- `DataProcessor._is_date_column`: some value among the first 10 non-missing
ones matches a date pattern. -/
def isDateColumn (vs : List (Option Val)) : Bool :=
  ((presentVals vs).take 10).any (fun v => isDateLike (valToStr v))

/-- Modelled from the spec: `pd.to_datetime(..., errors='coerce')` is library
code; it is modelled as mapping date-pattern-matching strings to a date value
built from their digits and coercing everything else to missing. -/
def toDatetime (vs : List (Option Val)) : List (Option Val) :=
  vs.map (fun c =>
    match c with
    | some v =>
      if isDateLike (valToStr v) then
        some (Val.date ((digitsToNat ((valToStr v).toList.filter Char.isDigit) : Int)))
      else none
    | none => none)

/-- `str.replace(r'[,$%]', '', regex=True)`: strip the formatting characters. -/
def stripFormatting (s : String) : String :=
  ⟨s.toList.filter (fun c => c ≠ ',' ∧ c ≠ '$' ∧ c ≠ '%')⟩

/-- One iteration of the column loop of `DataProcessor._convert_data_types`:
object columns are converted to datetime when date-like, else promoted to
numeric when strictly more than 80% of all entries (missing entries print as
`"nan"` and never parse) survive numeric coercion after stripping `, $ %`. -/
def cdStep (t : Table) (c : String) : Table :=
  match t.lookupCol c with
  | none => t
  | some col =>
    if col.dtype = DType.obj then
      if isDateColumn col.values then
        t.setColTyped c DType.datetime (toDatetime col.values)
      else
        let parsed := col.values.map
          (fun cell => (parseNumeric (stripFormatting (cellToStr cell))).map Val.num)
        if ((parsed.filter (fun p => p ≠ none)).length : ℚ) / (parsed.length : ℚ) > 8/10 then
          t.setColTyped c DType.numeric parsed
        else t
    else t

/-- `DataProcessor._convert_data_types`. -/
def convertDataTypes (t : Table) : Table :=
  (t.cols.map Col.name).foldl cdStep t

/-- `series.mean()` over the non-missing values. -/
def meanQ (xs : List ℚ) : ℚ :=
  if xs.length = 0 then 0 else xs.sum / (xs.length : ℚ)

/-- `series.quantile(q)` with pandas' linear interpolation over the sorted
non-missing values. -/
def quantileQ (xs : List ℚ) (q : ℚ) : ℚ :=
  let s := sortLe (fun a b => decide (a ≤ b)) xs
  let n := s.length
  if n = 0 then 0
  else
    let h : ℚ := q * ((n : ℚ) - 1)
    let i : Nat := (⌊h⌋).toNat
    let lo := s.getD i 0
    let hi := s.getD (i + 1) lo
    lo + (h - (i : ℚ)) * (hi - lo)

/-- IQR bounds of `DataProcessor._remove_outliers`:
`[Q1 - 1.5*IQR, Q3 + 1.5*IQR]` of a column's non-missing values. -/
def iqrLower (xs : List ℚ) : ℚ :=
  quantileQ xs (1/4) - 3/2 * (quantileQ xs (3/4) - quantileQ xs (1/4))

def iqrUpper (xs : List ℚ) : ℚ :=
  quantileQ xs (3/4) + 3/2 * (quantileQ xs (3/4) - quantileQ xs (1/4))

/-- One iteration of the numeric-column loop of
`DataProcessor._remove_outliers`: compute this column's bounds on the current
(already narrowed) table and keep the rows inside them; a missing entry
compares as false and its row is dropped. The `zscore` mask `|x-mean|/std < 3`
is expressed by squares (`(x-mean)^2 < 9*var`) to stay in exact arithmetic. -/
def outlierStep (method : String) (t : Table) (c : String) : Table :=
  match t.lookupCol c with
  | none => t
  | some col =>
    if method = "iqr" then
      let xs := numVals col.values
      t.filterRows (col.values.map (fun cell =>
        match cell with
        | some (Val.num v) => decide (iqrLower xs ≤ v) && decide (v ≤ iqrUpper xs)
        | _ => false))
    else if method = "zscore" then
      let xs := numVals col.values
      let m := meanQ xs
      let sampleVar : ℚ :=
        if xs.length ≤ 1 then 0
        else ((xs.map (fun x => (x - m) ^ 2)).sum) / ((xs.length : ℚ) - 1)
      t.filterRows (col.values.map (fun cell =>
        match cell with
        | some (Val.num v) => decide ((v - m) ^ 2 < 9 * sampleVar)
        | _ => false))
    else t

/-- `DataProcessor._remove_outliers`: iterate over the numeric columns present
at entry, narrowing the table sequentially. -/
def removeOutliers (t : Table) (method : String) : Table :=
  ((t.cols.filter (fun c => c.dtype = DType.numeric)).map Col.name).foldl
    (outlierStep method) t

/-- Row `i` of the table. -/
def Table.row (t : Table) (i : Nat) : List (Option Val) :=
  t.cols.map (fun c => c.values.getD i none)

/-- `df.dropna(how='all')`: drop the rows missing in every column. -/
def dropAllMissingRows (t : Table) : Table :=
  t.filterRows ((List.range t.nrows).map (fun i => (t.row i).any (fun v => v ≠ none)))

/-- `df.dropna(axis=1, how='all')`: drop the columns missing in every row
(pandas drops nothing from a zero-row frame). -/
def dropAllMissingCols (t : Table) : Table :=
  if t.nrows = 0 then t
  else ⟨t.cols.filter (fun c => ¬ c.values.all (fun v => v = none))⟩

/-- `df.drop_duplicates()`: keep the first occurrence of each full row. -/
def dropDuplicates (t : Table) : Table :=
  let rs := (List.range t.nrows).map t.row
  t.filterRows ((List.range t.nrows).map (fun i =>
    (List.range i).all (fun j => rs.getD j [] ≠ rs.getD i [])))

/-- Python-dict insert: overwrite an existing key in place, else append. -/
def dinsert {α : Type} (k : String) (v : α) (m : List (String × α)) : List (String × α) :=
  if m.any (fun p => p.1 = k) then m.map (fun p => if p.1 = k then (k, v) else p)
  else m ++ [(k, v)]

/-- Python-dict lookup. -/
def dlookup {α : Type} (k : String) (m : List (String × α)) : Option α :=
  (m.find? (fun p => p.1 = k)).map (fun p => p.2)

/-- `data[c]` as a numeric series: `KeyError` (the quoted column name) when the
column is absent, a conversion error when a cell is non-numeric, else the cells
as optional rationals (`none` = NaN). -/
def lookupNumVals (t : Table) (c : String) : Except String (List (Option ℚ)) :=
  match t.lookupCol c with
  | none => Except.error ("'" ++ c ++ "'")
  | some col =>
    if col.values.all (fun cell =>
        match cell with
        | some (Val.num _) => true
        | none => true
        | _ => false) then
      Except.ok (col.values.map (fun cell =>
        match cell with
        | some (Val.num q) => some q
        | _ => none))
    else Except.error "could not convert string to float"

/-- The pairwise-complete observations of two series (the pairs both of whose
entries are present), as used by `Series.corr`. -/
def pairedQ (xs ys : List (Option ℚ)) : List (ℚ × ℚ) :=
  (xs.zip ys).filterMap (fun p =>
    match p with
    | (some a, some b) => some (a, b)
    | _ => none)

/-- Centered sum of squares `Σ (x - mean)²`. -/
def cSS (xs : List ℚ) : ℚ :=
  (xs.map (fun x => (x - meanQ xs) ^ 2)).sum

/-- Centered sum of products `Σ (x - mean x)(y - mean y)` over positional pairs. -/
def cSP (xs ys : List ℚ) : ℚ :=
  ((xs.zip ys).map (fun p => (p.1 - meanQ xs) * (p.2 - meanQ ys))).sum

/-- `Series.corr` (Pearson) over the pairwise-complete observations:
`cov / (std x * std y)`; `none` models the NaN produced when either variance
term vanishes (constant column, or fewer than two pairs). -/
noncomputable def corrComp (xs ys : List (Option ℚ)) : Option ℝ :=
  if cSS ((pairedQ xs ys).map Prod.fst) * cSS ((pairedQ xs ys).map Prod.snd) = 0 then none
  else some ((cSP ((pairedQ xs ys).map Prod.fst) ((pairedQ xs ys).map Prod.snd) : ℝ) /
    (Real.sqrt ((cSS ((pairedQ xs ys).map Prod.fst) : ℚ) : ℝ) *
      Real.sqrt ((cSS ((pairedQ xs ys).map Prod.snd) : ℚ) : ℝ)))

/-- `sklearn.LinearRegression().fit` of y on x with intercept, plus
`model.score` (R² = 1 - SSres/SStot): slope `Sxy/Sxx`,
intercept `mean y - slope * mean x`. -/
def olsSlope (xs ys : List ℚ) : ℚ := cSP xs ys / cSS xs

def olsIntercept (xs ys : List ℚ) : ℚ := meanQ ys - olsSlope xs ys * meanQ xs

def olsR2 (xs ys : List ℚ) : ℚ :=
  let residSS := ((xs.zip ys).map
    (fun p => (p.2 - (olsSlope xs ys * p.1 + olsIntercept xs ys)) ^ 2)).sum
  1 - residSS / cSS ys

/-- One value of the `results` dict of `DataAnalystAgent._perform_computations`:
a correlation float (possibly NaN), a regression record, or the string of a
caught per-computation exception. -/
inductive CompResult where
  | corrVal (r : Option ℝ)
  | regrVal (r_squared coefficient intercept : ℚ)
  | errVal (msg : String)

/-- One entry of the LLM plan's `computations` list (`comp.get` fields). -/
structure CompSpec where
  ctype : Option String
  data_source : Option String
  columns : List String

/-- One iteration of the computation loop of
`DataAnalystAgent._perform_computations`: a `data_source` absent from
`data_files` is skipped by `continue` with nothing recorded; inside the try
block, a missing or non-numeric column raises and the exception string is
recorded under `computation_error_{type}`; a regression input containing NaN
raises inside sklearn and is recorded the same way. -/
noncomputable def compStep (files : List (String × Table))
    (acc : List (String × CompResult)) (comp : CompSpec) : List (String × CompResult) :=
  match comp.data_source with
  | none => acc
  | some ds =>
    match dlookup ds files with
    | none => acc
    | some data =>
      let c0 := comp.columns.getD 0 ""
      let c1 := comp.columns.getD 1 ""
      if comp.ctype = some "correlation" ∧ 2 ≤ comp.columns.length then
        match lookupNumVals data c0, lookupNumVals data c1 with
        | Except.ok xs, Except.ok ys =>
          dinsert ("correlation_" ++ c0 ++ "_" ++ c1) (CompResult.corrVal (corrComp xs ys)) acc
        | Except.error e, _ => dinsert "computation_error_correlation" (CompResult.errVal e) acc
        | _, Except.error e => dinsert "computation_error_correlation" (CompResult.errVal e) acc
      else if comp.ctype = some "regression" ∧ 2 ≤ comp.columns.length then
        match lookupNumVals data c0, lookupNumVals data c1 with
        | Except.ok xs, Except.ok ys =>
          if xs.any (fun v => v = none) ∨ ys.any (fun v => v = none) then
            dinsert "computation_error_regression" (CompResult.errVal "Input contains NaN") acc
          else
            let xq := xs.filterMap id
            let yq := ys.filterMap id
            dinsert ("regression_" ++ c0 ++ "_" ++ c1)
              (CompResult.regrVal (olsR2 xq yq) (olsSlope xq yq) (olsIntercept xq yq)) acc
        | Except.error e, _ => dinsert "computation_error_regression" (CompResult.errVal e) acc
        | _, Except.error e => dinsert "computation_error_regression" (CompResult.errVal e) acc
      else acc

/-- `DataAnalystAgent._perform_computations`. -/
noncomputable def performComputations (comps : List CompSpec)
    (files : List (String × Table)) : List (String × CompResult) :=
  comps.foldl (compStep files) []

/-- Table-level correlation (`data[a].corr(data[b])` wrapped in the agent's
try block): column resolution errors are exceptions, a NaN result is `none`. -/
noncomputable def corrTable (t : Table) (a b : String) : Except String (Option ℝ) :=
  match lookupNumVals t a, lookupNumVals t b with
  | Except.ok xs, Except.ok ys => Except.ok (corrComp xs ys)
  | Except.error e, _ => Except.error e
  | _, Except.error e => Except.error e

/-! Chart renderer byte budget (`ChartGenerator._fig_to_base64`). A rendered
figure is abstracted as a function from dpi to the PNG byte string
`fig.savefig(...)` produces at that dpi. -/

/-- The base64 alphabet. -/
def b64Char (n : Nat) : Char :=
  ("ABCDEFGHIJKLMNOPQRSTUVWXYZabcdefghijklmnopqrstuvwxyz0123456789+/".toList).getD n 'A'

/-- Standard base64 of a byte list (3-byte groups to 4 characters, `=` pad). -/
def b64Chunks : List Nat → List Char
  | [] => []
  | [a] => [b64Char (a / 4), b64Char (a % 4 * 16), '=', '=']
  | [a, b] => [b64Char (a / 4), b64Char (a % 4 * 16 + b / 16), b64Char (b % 16 * 4), '=']
  | a :: b :: c :: rest =>
    [b64Char (a / 4), b64Char (a % 4 * 16 + b / 16), b64Char (b % 16 * 4 + c / 64),
      b64Char (c % 64)] ++ b64Chunks rest

/-- `base64.b64encode(...).decode('utf-8')`. -/
def b64Encode (bytes : List Nat) : String := ⟨b64Chunks bytes⟩

/-- `ChartGenerator.__init__` constants. -/
def defaultDpi : Nat := 100

def maxSizeBytes : Nat := 100000

/-- The byte string `_fig_to_base64` ends up encoding: the first render, or —
when the first render's RAW byte length exceeds `max_size_bytes` — one single
re-render at dpi 50, returned unconditionally. -/
def chosenImage (render : Nat → List Nat) (dpi maxBytes : Nat) : List Nat :=
  if (render dpi).length > maxBytes then render 50 else render dpi

/-- `ChartGenerator._fig_to_base64`: size check on the raw PNG bytes, at most
one downgrade retry, base64 wrapped in a data URI. -/
def figToBase64 (render : Nat → List Nat) (dpi maxBytes : Nat) : String :=
  "data:image/png;base64," ++ b64Encode (chosenImage render dpi maxBytes)

/-! `DataProcessor.prepare_for_ml` and its per-instance state. -/

/-- The mutable instance state set up by `DataProcessor.__init__`:
`self.scalers` (per fit: column name with fitted mean and variance) and
`self.encoders` (column name to the encoder's sorted class list). -/
structure DPState where
  scalers : List (String × List (String × ℚ × ℚ))
  encoders : List (String × List String)
deriving DecidableEq, Repr

/-- `DataProcessor.__init__`: empty dicts. -/
def dpInit : DPState := ⟨[], []⟩

/-- `LabelEncoder().fit` on `astype(str)` values: the sorted distinct strings. -/
def leClasses (vs : List (Option Val)) : List String :=
  sortLe (fun a b => decide (a ≤ b)) ((vs.map cellToStr).dedup)

/-- `LabelEncoder.transform`: each value's index in the class list. -/
def leTransform (classes : List String) (vs : List (Option Val)) : List Nat :=
  (vs.map cellToStr).map (fun s => classes.indexOf s)

/-- Population variance (`StandardScaler` ddof = 0) of the present values. -/
def popVar (xs : List ℚ) : ℚ :=
  if xs.length = 0 then 0 else ((xs.map (fun x => (x - meanQ xs) ^ 2)).sum) / (xs.length : ℚ)

/-- `StandardScaler.fit_transform` on one column of optional rationals:
`(x - mean)/sqrt(var)` per present cell. -/
noncomputable def scaleCells (vs : List (Option ℚ)) : List (Option ℝ) :=
  let xs := vs.filterMap id
  vs.map (fun c =>
    match c with
    | some q => some (((q : ℝ) - (meanQ xs : ℝ)) / Real.sqrt (popVar xs : ℝ))
    | none => none)

/-- A column of the frame `prepare_for_ml` returns: label-encoded integers are
subsequently numeric and standardized, so encoded and numeric feature columns
come out as floats; everything else is untouched. -/
inductive MLVals where
  | reals (vs : List (Option ℝ))
  | cells (vs : List (Option Val))

/-- The dict `prepare_for_ml` returns. -/
structure MLResult where
  data : List (String × MLVals)
  encoders : List (String × List String)
  scalers : List (String × List (String × ℚ × ℚ))
  feature_columns : List String
  target_column : Option String

/-- The column is label-encoded: object/category dtype and not the target. -/
def isEncodedCol (target : Option String) (c : Col) : Bool :=
  (c.dtype = DType.obj ∨ c.dtype = DType.cat) ∧ some c.name ≠ target

/-- The numeric values a feature column carries entering the scaler: encoded
columns carry their integer codes, numeric columns their present values. -/
def scalerInput (target : Option String) (c : Col) : List (Option ℚ) :=
  if isEncodedCol target c then (leTransform (leClasses c.values) c.values).map (fun n => some (n : ℚ))
  else c.values.map (fun cell =>
    match cell with
    | some (Val.num q) => some q
    | _ => none)

/-- The numeric feature columns of `df_ml` after encoding (encoded categorical
columns become integer dtype and join `select_dtypes(number)`), with a numeric
target dropped. -/
def featureNumericCols (t : Table) (target : Option String) : List Col :=
  t.cols.filter (fun c =>
    isEncodedCol target c ∨ (c.dtype = DType.numeric ∧ some c.name ≠ target))

/-- The fitted `StandardScaler` parameters per numeric feature column. -/
def scalerParams (t : Table) (target : Option String) : List (String × ℚ × ℚ) :=
  (featureNumericCols t target).map (fun c =>
    (c.name, meanQ ((scalerInput target c).filterMap id),
      popVar ((scalerInput target c).filterMap id)))

/-- The transformed values of one column of `df_ml`. -/
noncomputable def mlTransformCol (target : Option String) (c : Col) : MLVals :=
  if isEncodedCol target c ∨ (c.dtype = DType.numeric ∧ some c.name ≠ target) then
    MLVals.reals (scaleCells (scalerInput target c))
  else MLVals.cells c.values

/-- `DataProcessor.prepare_for_ml`: encode categorical non-target columns and
record each fitted encoder in `self.encoders`; standardize the numeric feature
columns and record the fitted scaler under `self.scalers['features']`; the
returned dict aliases the instance dicts. -/
noncomputable def prepareForMl (st : DPState) (t : Table) (target : Option String) :
    DPState × MLResult :=
  let encoders' := (t.cols.filter (isEncodedCol target)).foldl
    (fun m c => dinsert c.name (leClasses c.values) m) st.encoders
  let scalers' :=
    if featureNumericCols t target ≠ [] then dinsert "features" (scalerParams t target) st.scalers
    else st.scalers
  (⟨scalers', encoders'⟩,
    { data := t.cols.map (fun c => (c.name, mlTransformCol target c)),
      encoders := encoders',
      scalers := scalers',
      feature_columns := (t.cols.map Col.name).filter (fun n => some n ≠ target),
      target_column := target })

/-! Model of `DataAnalystAgent._parse_analysis_response`: regex extraction of a
`{...}` span followed by `json.loads`, with the raw-text fallback. -/

/-- JSON values (the shapes `json.loads` can return). -/
inductive Json where
  | null
  | bool (b : Bool)
  | num (q : ℚ)
  | str (s : String)
  | arr (elems : List Json)
  | obj (fields : List (String × Json))
deriving Repr

/-- JSON whitespace skip. -/
def skipWs (cs : List Char) : List Char :=
  cs.dropWhile (fun c => c = ' ' ∨ c = '\n' ∨ c = '\t' ∨ c = '\r')

/-- JSON string body after the opening quote (common escapes; the repository's
inputs use none beyond these). -/
def parseJStr : List Char → Option (String × List Char)
  | [] => none
  | '"' :: rest => some ("", rest)
  | '\\' :: e :: rest =>
    match parseJStr rest with
    | none => none
    | some (s, r) =>
      match e with
      | '"' => some (⟨'"' :: s.toList⟩, r)
      | '\\' => some (⟨'\\' :: s.toList⟩, r)
      | '/' => some (⟨'/' :: s.toList⟩, r)
      | 'n' => some (⟨'\n' :: s.toList⟩, r)
      | 't' => some (⟨'\t' :: s.toList⟩, r)
      | 'r' => some (⟨'\r' :: s.toList⟩, r)
      | _ => none
  | c :: rest =>
    match parseJStr rest with
    | none => none
    | some (s, r) => some (⟨c :: s.toList⟩, r)

/-- Exponent suffix of a JSON number. -/
def parseJExp (base : ℚ) (t : List Char) : Option (ℚ × List Char) :=
  let esign : Bool := match t with | '-' :: _ => true | _ => false
  let t1 := match t with | '-' :: u => u | '+' :: u => u | _ => t
  let ds := t1.takeWhile Char.isDigit
  if ds.isEmpty then none
  else
    some (base * (10 : ℚ) ^ (if esign then -(digitsToNat ds : ℤ) else (digitsToNat ds : ℤ)),
      t1.dropWhile Char.isDigit)

/-- A JSON number literal. -/
def parseJNum (cs : List Char) : Option (ℚ × List Char) :=
  let neg : Bool := match cs with | '-' :: _ => true | _ => false
  let cs1 := match cs with | '-' :: t => t | _ => cs
  let ip := cs1.takeWhile Char.isDigit
  let r1 := cs1.dropWhile Char.isDigit
  if ip.isEmpty then none
  else
    let step2 : Option (ℚ × List Char) :=
      match r1 with
      | '.' :: t =>
        let fp := t.takeWhile Char.isDigit
        if fp.isEmpty then none
        else
          some ((digitsToNat ip : ℚ) + (digitsToNat fp : ℚ) / (10 : ℚ) ^ fp.length,
            t.dropWhile Char.isDigit)
      | _ => some ((digitsToNat ip : ℚ), r1)
    match step2 with
    | none => none
    | some (b2, r2) =>
      let step3 : Option (ℚ × List Char) :=
        match r2 with
        | 'e' :: t => parseJExp b2 t
        | 'E' :: t => parseJExp b2 t
        | _ => some (b2, r2)
      match step3 with
      | none => none
      | some (v, r3) => some (if neg then -v else v, r3)

mutual

/-- A JSON value (fuel-bounded recursive-descent model of `json.loads`). -/
def parseJVal : Nat → List Char → Option (Json × List Char)
  | 0, _ => none
  | Nat.succ fuel, cs =>
    match skipWs cs with
    | '{' :: rest =>
      (match skipWs rest with
      | '}' :: r2 => some (Json.obj [], r2)
      | r2 => parseJMembers fuel r2 [])
    | '[' :: rest =>
      (match skipWs rest with
      | ']' :: r2 => some (Json.arr [], r2)
      | r2 => parseJElems fuel r2 [])
    | '"' :: rest =>
      (match parseJStr rest with
      | none => none
      | some (s, r) => some (Json.str s, r))
    | 't' :: 'r' :: 'u' :: 'e' :: rest => some (Json.bool true, rest)
    | 'f' :: 'a' :: 'l' :: 's' :: 'e' :: rest => some (Json.bool false, rest)
    | 'n' :: 'u' :: 'l' :: 'l' :: rest => some (Json.null, rest)
    | other =>
      (match parseJNum other with
      | none => none
      | some (q, r) => some (Json.num q, r))

/-- The members of a JSON object after `{` (key, `:`, value, then `,` or `}`).
Duplicate keys are kept in order (the repository's payloads have none). -/
def parseJMembers : Nat → List Char → List (String × Json) → Option (Json × List Char)
  | 0, _, _ => none
  | Nat.succ fuel, cs, acc =>
    match cs with
    | '"' :: rest =>
      (match parseJStr rest with
      | none => none
      | some (k, r1) =>
        match skipWs r1 with
        | ':' :: r2 =>
          (match parseJVal fuel r2 with
          | none => none
          | some (v, r3) =>
            match skipWs r3 with
            | ',' :: r4 => parseJMembers fuel (skipWs r4) (acc ++ [(k, v)])
            | '}' :: r4 => some (Json.obj (acc ++ [(k, v)]), r4)
            | _ => none)
        | _ => none)
    | _ => none

/-- The elements of a JSON array after `[`. -/
def parseJElems : Nat → List Char → List Json → Option (Json × List Char)
  | 0, _, _ => none
  | Nat.succ fuel, cs, acc =>
    match parseJVal fuel cs with
    | none => none
    | some (v, r1) =>
      match skipWs r1 with
      | ',' :: r2 => parseJElems fuel (skipWs r2) (acc ++ [v])
      | ']' :: r2 => some (Json.arr (acc ++ [v]), r2)
      | _ => none

end

/-- `json.loads`: one JSON value spanning the whole string. -/
def jsonParse (s : String) : Option Json :=
  match parseJVal (2 * s.length + 2) s.toList with
  | some (j, rest) => if (skipWs rest).isEmpty then some j else none
  | none => none

/-- Index of the first occurrence of a character. -/
def firstIdxOf (c : Char) (cs : List Char) : Option Nat :=
  cs.findIdx? (fun x => x = c)

/-- Index of the last occurrence of a character. -/
def lastIdxOf (c : Char) (cs : List Char) : Option Nat :=
  (cs.reverse.findIdx? (fun x => x = c)).map (fun k => cs.length - 1 - k)

/-- `re.search(r'\x7b.*\x7d', text, re.DOTALL)`: the span from the first
opening brace to the last closing brace, when the first `\x7b` precedes the
last `\x7d`. -/
def extractJsonSpan (text : String) : Option String :=
  let cs := text.toList
  match firstIdxOf '{' cs, lastIdxOf '}' cs with
  | some i, some j => if i < j then some ⟨(cs.drop i).take (j - i + 1)⟩ else none
  | _, _ => none

/-- The fallback dict `_parse_analysis_response` builds from unparseable text. -/
def fallbackResponse (text : String) : Json :=
  Json.obj [("answers", Json.arr [Json.str text]), ("insights", Json.str text),
    ("needs_visualization", Json.bool false), ("requires_computation", Json.bool false),
    ("success", Json.bool true)]

/-- `DataAnalystAgent._parse_analysis_response`: return whatever JSON object
the regex span parses to, falling back to the raw-text dict when there is no
span or `json.loads` raises. -/
def parseAnalysisResponse (text : String) : Json :=
  match extractJsonSpan text with
  | some jstr =>
    match jsonParse jstr with
    | some j => j
    | none => fallbackResponse text
  | none => fallbackResponse text

/-- Field lookup in a JSON object (`dict.get`). -/
def jLookup (j : Json) (k : String) : Option Json :=
  match j with
  | Json.obj fs => (fs.find? (fun p => p.1 = k)).map (fun p => p.2)
  | _ => none

/-! Heap model for the aliasing behavior of `clean_dataframe`: pandas frames
are heap objects; `df.copy()`, `dropna`, `drop`, `drop_duplicates` and boolean
indexing allocate new frames, while `df[col] = ...` mutates the frame its
reference points to. -/

/-- The heap of allocated frames; a reference is an index into it. -/
abbrev Heap := List Table

/-- Allocation: append and return the fresh reference. -/
def halloc (h : Heap) (t : Table) : Heap × Nat := (h ++ [t], h.length)

/-- Dereference. -/
def hget (h : Heap) (r : Nat) : Table := (List.getD h r ⟨[]⟩)

/-- In-place update of the frame a reference points to. -/
def hset (h : Heap) (r : Nat) (t : Table) : Heap := h.set r t

/-- One iteration of the `_handle_missing_values` column loop on the heap:
`drop(columns=...)` and `dropna(subset=...)` allocate new frames rebinding the
local variable, `df_copy[column] = ...` mutates in place. -/
def hmStepH (strategy : String) (st : Heap × Nat) (c : String) : Heap × Nat :=
  let h := st.1
  let r := st.2
  let t := hget h r
  match t.lookupCol c with
  | none => (h, r)
  | some col =>
    if missingCount col.values = 0 then (h, r)
    else if strategy = "auto" then
      if (missingCount col.values : ℚ) / (t.nrows : ℚ) > 1/2 then halloc h (t.dropCol c)
      else if col.dtype = DType.obj ∨ col.dtype = DType.cat then
        (hset h r (t.setColVals c
          (fillMissing col.values ((modeVal col.values).getD (Val.str "Unknown")))), r)
      else
        (hset h r (t.setColVals c
          (fillMissing col.values (Val.num (medianQ (numVals col.values))))), r)
    else if strategy = "drop" then
      halloc h (t.filterRows (col.values.map (fun v => v ≠ none)))
    else if strategy = "forward_fill" then
      (hset h r (t.setColVals c (ffillVals col.values)), r)
    else if strategy = "backward_fill" then
      (hset h r (t.setColVals c (bfillVals col.values)), r)
    else (h, r)

/-- `_handle_missing_values` on the heap: `df.copy()` then the column loop. -/
def handleMissingValuesH (h : Heap) (r : Nat) (strategy : String) : Heap × Nat :=
  let hc := halloc h (hget h r)
  ((hget h r).cols.map Col.name).foldl (hmStepH strategy) hc

/-- One iteration of the `_convert_data_types` column loop on the heap
(`df_copy[column] = ...` mutates in place). -/
def cdStepH (st : Heap × Nat) (c : String) : Heap × Nat :=
  (hset st.1 st.2 (cdStep (hget st.1 st.2) c), st.2)

/-- `_convert_data_types` on the heap. -/
def convertDataTypesH (h : Heap) (r : Nat) : Heap × Nat :=
  let hc := halloc h (hget h r)
  ((hget h r).cols.map Col.name).foldl cdStepH hc

/-- One iteration of the `_remove_outliers` loop on the heap (boolean indexing
allocates a new frame). -/
def outlierStepH (method : String) (st : Heap × Nat) (c : String) : Heap × Nat :=
  halloc st.1 (outlierStep method (hget st.1 st.2) c)

/-- `_remove_outliers` on the heap. -/
def removeOutliersH (h : Heap) (r : Nat) (method : String) : Heap × Nat :=
  let hc := halloc h (hget h r)
  (((hget h r).cols.filter (fun c => c.dtype = DType.numeric)).map Col.name).foldl
    (outlierStepH method) hc

/-- The options record of `clean_dataframe` with the `.get` defaults. -/
structure CleanOptions where
  missing_strategy : String := "auto"
  remove_duplicates : Bool := true
  remove_outliers : Bool := false

/-- `DataProcessor.clean_dataframe` on the heap: copy, drop empty rows and
columns, handle missing values, convert types, optionally drop duplicates and
remove outliers; every step allocates or mutates only frames created inside
the call. -/
def cleanDataframeH (h : Heap) (r : Nat) (opts : CleanOptions) : Heap × Nat :=
  let s1 := halloc h (hget h r)
  let s2 := halloc s1.1 (dropAllMissingRows (hget s1.1 s1.2))
  let s3 := halloc s2.1 (dropAllMissingCols (hget s2.1 s2.2))
  let s4 := handleMissingValuesH s3.1 s3.2 opts.missing_strategy
  let s5 := convertDataTypesH s4.1 s4.2
  let s6 :=
    if opts.remove_duplicates then halloc s5.1 (dropDuplicates (hget s5.1 s5.2))
    else s5
  if opts.remove_outliers then removeOutliersH s6.1 s6.2 "iqr" else s6

/-! ## Theorems -/

/-! ### Shared table lemmas -/

/-- All columns have length `n` (the equal-length Table invariant). -/
def Table.allLen (t : Table) (n : Nat) : Prop :=
  ∀ c ∈ t.cols, c.values.length = n

instance (t : Table) (n : Nat) : Decidable (t.allLen n) := by
  unfold Table.allLen; infer_instance

lemma nrows_of_allLen {t : Table} {n : Nat} (h : t.allLen n) (hne : t.cols ≠ []) :
    t.nrows = n := by
  unfold Table.nrows
  cases hc : t.cols with
  | nil => exact absurd hc hne
  | cons c cs =>
    simp only [List.head?]
    exact h c (by rw [hc]; exact List.mem_cons_self c cs)

lemma lookupCol_mem {t : Table} {c : String} {col : Col} (h : t.lookupCol c = some col) :
    col ∈ t.cols ∧ col.name = c := by
  refine ⟨List.mem_of_find?_eq_some h, ?_⟩
  have := List.find?_some h
  simpa using this

lemma lookupCol_ne_nil {t : Table} {c : String} {col : Col} (h : t.lookupCol c = some col) :
    t.cols ≠ [] := by
  intro hnil
  rw [Table.lookupCol, hnil] at h
  simp [List.find?] at h

lemma find?_name_self (l : List Col) (col : Col) (hnd : (l.map Col.name).Nodup)
    (hmem : col ∈ l) : l.find? (fun c => c.name = col.name) = some col := by
  induction l with
  | nil => cases hmem
  | cons a cs ih =>
    simp only [List.map_cons, List.nodup_cons] at hnd
    rcases List.mem_cons.mp hmem with rfl | hmem'
    · simp [List.find?_cons]
    · have hne : a.name ≠ col.name := by
        intro he
        exact hnd.1 (he ▸ List.mem_map_of_mem Col.name hmem')
      rw [List.find?_cons, decide_eq_false (fun h => hne h)]
      exact ih hnd.2 hmem'

lemma lookupCol_self_of_nodup {t : Table} {col : Col}
    (hnd : (t.cols.map Col.name).Nodup) (hmem : col ∈ t.cols) :
    t.lookupCol col.name = some col :=
  find?_name_self t.cols col hnd hmem

lemma find?_filter_ne (l : List Col) (c c' : String) (h : c' ≠ c) :
    (l.filter (fun col => col.name ≠ c)).find? (fun col => col.name = c') =
      l.find? (fun col => col.name = c') := by
  induction l with
  | nil => rfl
  | cons a as ih =>
    by_cases hac : a.name = c
    · have hnotc' : ¬ (a.name = c') := fun he => h (he.symm.trans hac)
      rw [List.filter_cons_of_neg (by simp [hac]),
        List.find?_cons_of_neg _ (by simp [hnotc']), ih]
    · rw [List.filter_cons_of_pos (by simp [hac])]
      by_cases hc' : a.name = c'
      · rw [List.find?_cons_of_pos _ (by simp [hc']), List.find?_cons_of_pos _ (by simp [hc'])]
      · rw [List.find?_cons_of_neg _ (by simp [hc']), List.find?_cons_of_neg _ (by simp [hc'])]
        exact ih

lemma lookupCol_dropCol_other (t : Table) (c c' : String) (h : c' ≠ c) :
    (t.dropCol c).lookupCol c' = t.lookupCol c' :=
  find?_filter_ne t.cols c c' h

lemma lookupCol_dropCol_self (t : Table) (c : String) :
    (t.dropCol c).lookupCol c = none := by
  unfold Table.dropCol Table.lookupCol
  apply List.find?_eq_none.mpr
  intro col hmem
  have := List.of_mem_filter hmem
  simp only [decide_not, Bool.not_eq_true'] at this
  simp [decide_eq_false_iff_not.mp this]

lemma find?_map_namePreserving (f : Col → Col) (hf : ∀ col, (f col).name = col.name)
    (l : List Col) (c : String) :
    (l.map f).find? (fun col => col.name = c) = (l.find? (fun col => col.name = c)).map f := by
  induction l with
  | nil => rfl
  | cons a as ih =>
    rw [List.map_cons, List.find?_cons, List.find?_cons, hf a]
    cases hd : decide (a.name = c) <;> simp [hd, ih]

lemma lookupCol_setColVals (t : Table) (c c' : String) (vs : List (Option Val)) :
    (t.setColVals c vs).lookupCol c' =
      (t.lookupCol c').map (fun col => if col.name = c then { col with values := vs } else col) :=
  find?_map_namePreserving _ (fun col => by by_cases h : col.name = c <;> simp [h]) t.cols c'

lemma lookupCol_setColVals_other (t : Table) (c c' : String) (vs : List (Option Val))
    (h : c' ≠ c) : (t.setColVals c vs).lookupCol c' = t.lookupCol c' := by
  rw [lookupCol_setColVals]
  cases hl : t.lookupCol c' with
  | none => rfl
  | some col =>
    have hname := (lookupCol_mem hl).2
    simp [hname, h]

lemma lookupCol_setColVals_self (t : Table) (c : String) (vs : List (Option Val)) (col : Col)
    (h : t.lookupCol c = some col) :
    (t.setColVals c vs).lookupCol c = some { col with values := vs } := by
  rw [lookupCol_setColVals, h]
  have hname := (lookupCol_mem h).2
  simp [hname]

lemma lookupCol_setColTyped (t : Table) (c c' : String) (d : DType) (vs : List (Option Val)) :
    (t.setColTyped c d vs).lookupCol c' =
      (t.lookupCol c').map
        (fun col => if col.name = c then { col with dtype := d, values := vs } else col) :=
  find?_map_namePreserving _ (fun col => by by_cases h : col.name = c <;> simp [h]) t.cols c'

lemma lookupCol_setColTyped_other (t : Table) (c c' : String) (d : DType)
    (vs : List (Option Val)) (h : c' ≠ c) :
    (t.setColTyped c d vs).lookupCol c' = t.lookupCol c' := by
  rw [lookupCol_setColTyped]
  cases hl : t.lookupCol c' with
  | none => rfl
  | some col =>
    have hname := (lookupCol_mem hl).2
    simp [hname, h]

lemma lookupCol_setColTyped_self (t : Table) (c : String) (d : DType)
    (vs : List (Option Val)) (col : Col) (h : t.lookupCol c = some col) :
    (t.setColTyped c d vs).lookupCol c = some { col with dtype := d, values := vs } := by
  rw [lookupCol_setColTyped, h]
  have hname := (lookupCol_mem h).2
  simp [hname]

lemma fillMissing_length (vs : List (Option Val)) (v : Val) :
    (fillMissing vs v).length = vs.length := by
  unfold fillMissing
  exact List.length_map vs _

lemma fillMissing_of_no_missing (vs : List (Option Val)) (v : Val)
    (h : missingCount vs = 0) : fillMissing vs v = vs := by
  unfold fillMissing
  unfold missingCount at h
  rw [List.length_eq_zero] at h
  induction vs with
  | nil => rfl
  | cons x xs ih =>
    cases x with
    | none => simp [List.filter_cons] at h
    | some w =>
      rw [List.filter_cons_of_neg (by simp)] at h
      simp only [List.map_cons]
      rw [ih h]

/-! ### C5: auto missing-value policy -/

/-- The per-column outcome of one `auto` iteration (`none` = column dropped),
as a function of the row count and the column alone. -/
def autoColResult (n : Nat) (col : Col) : Option Col :=
  if missingCount col.values = 0 then some col
  else if (missingCount col.values : ℚ) / (n : ℚ) > 1/2 then none
  else if col.dtype = DType.obj ∨ col.dtype = DType.cat then
    some { col with
      values := fillMissing col.values ((modeVal col.values).getD (Val.str "Unknown")) }
  else
    some { col with values := fillMissing col.values (Val.num (medianQ (numVals col.values))) }

lemma hmStep_eq_none (strategy : String) (t : Table) (c : String)
    (h : t.lookupCol c = none) : hmStep strategy t c = t := by
  unfold hmStep
  rw [h]

lemma hmStep_auto_eq (t : Table) (c : String) (col : Col) (h : t.lookupCol c = some col) :
    hmStep "auto" t c =
      if missingCount col.values = 0 then t
      else if (missingCount col.values : ℚ) / (t.nrows : ℚ) > 1/2 then t.dropCol c
      else if col.dtype = DType.obj ∨ col.dtype = DType.cat then
        t.setColVals c (fillMissing col.values ((modeVal col.values).getD (Val.str "Unknown")))
      else
        t.setColVals c (fillMissing col.values (Val.num (medianQ (numVals col.values)))) := by
  unfold hmStep
  rw [h]
  simp

lemma hmStep_auto_other (t : Table) (a c : String) (h : c ≠ a) :
    (hmStep "auto" t a).lookupCol c = t.lookupCol c := by
  cases hl : t.lookupCol a with
  | none => rw [hmStep_eq_none _ _ _ hl]
  | some col =>
    rw [hmStep_auto_eq t a col hl]
    split_ifs with h1 h2 h3
    · rfl
    · exact lookupCol_dropCol_other t a c h
    · exact lookupCol_setColVals_other t a c _ h
    · exact lookupCol_setColVals_other t a c _ h

lemma hmStep_auto_self (t : Table) (c : String) (col : Col)
    (h : t.lookupCol c = some col) :
    (hmStep "auto" t c).lookupCol c = autoColResult t.nrows col := by
  rw [hmStep_auto_eq t c col h]
  unfold autoColResult
  split_ifs with h1 h2 h3
  · exact h
  · exact lookupCol_dropCol_self t c
  · exact lookupCol_setColVals_self t c _ col h
  · exact lookupCol_setColVals_self t c _ col h

lemma allLen_dropCol {t : Table} {n : Nat} (h : t.allLen n) (c : String) :
    (t.dropCol c).allLen n := by
  intro col hmem
  exact h col (List.mem_of_mem_filter hmem)

lemma allLen_setColVals {t : Table} {n : Nat} (h : t.allLen n) (c : String)
    {vs : List (Option Val)} (hvs : vs.length = n) : (t.setColVals c vs).allLen n := by
  intro col hmem
  obtain ⟨col', hmem', heq⟩ := List.mem_map.mp hmem
  by_cases hc : col'.name = c
  · rw [← heq]
    simpa [hc] using hvs
  · rw [← heq]
    simpa [hc] using h col' hmem'

lemma hmStep_auto_allLen {t : Table} {n : Nat} (h : t.allLen n) (c : String) :
    (hmStep "auto" t c).allLen n := by
  cases hl : t.lookupCol c with
  | none => rw [hmStep_eq_none _ _ _ hl]; exact h
  | some col =>
    have hcl : col.values.length = n := h col (lookupCol_mem hl).1
    rw [hmStep_auto_eq t c col hl]
    split_ifs with h1 h2 h3
    · exact h
    · exact allLen_dropCol h c
    · exact allLen_setColVals h c (by rw [fillMissing_length]; exact hcl)
    · exact allLen_setColVals h c (by rw [fillMissing_length]; exact hcl)

lemma fold_auto_untouched (ns : List String) (c : String) (hc : c ∉ ns) :
    ∀ t : Table, (ns.foldl (hmStep "auto") t).lookupCol c = t.lookupCol c := by
  induction ns with
  | nil => intro t; rfl
  | cons a ns ih =>
    intro t
    rw [List.foldl_cons, ih (fun hmem => hc (List.mem_cons_of_mem a hmem))]
    exact hmStep_auto_other t a c (fun he => hc (he ▸ List.mem_cons_self a ns))

lemma fold_auto_spec (n : Nat) (ns : List String) :
    ∀ (t : Table) (c : String) (col : Col), ns.Nodup → t.allLen n → c ∈ ns →
      t.lookupCol c = some col →
      (ns.foldl (hmStep "auto") t).lookupCol c = autoColResult n col := by
  induction ns with
  | nil => intro t c col _ _ hc; cases hc
  | cons a ns ih =>
    intro t c col hnd hlen hc hl
    rw [List.foldl_cons]
    by_cases hac : c = a
    · subst hac
      have hnotin : c ∉ ns := (List.nodup_cons.mp hnd).1
      rw [fold_auto_untouched ns c hnotin]
      rw [hmStep_auto_self t c col hl]
      rw [nrows_of_allLen hlen (lookupCol_ne_nil hl)]
    · refine ih (hmStep "auto" t a) c col (List.nodup_cons.mp hnd).2
        (hmStep_auto_allLen hlen a) (List.mem_of_ne_of_mem hac hc) ?_
      rw [hmStep_auto_other t a c hac]
      exact hl

/-- C5: under the `auto` policy, a column whose missing fraction exceeds 0.5
is dropped from the output; otherwise an object/category column comes out
filled with its most frequent value (the literal `'Unknown'` when no mode
exists) and a numeric column filled with its median. -/
theorem autoMissingPolicy (t : Table) (n : Nat) (col : Col)
    (hnd : (t.cols.map Col.name).Nodup) (hlen : t.allLen n) (hmem : col ∈ t.cols) :
    ((missingCount col.values : ℚ) / (n : ℚ) > 1/2 →
      (handleMissingValues t "auto").lookupCol col.name = none) ∧
    ((missingCount col.values : ℚ) / (n : ℚ) ≤ 1/2 →
      (col.dtype = DType.obj ∨ col.dtype = DType.cat) →
      (handleMissingValues t "auto").lookupCol col.name =
        some { col with
          values := fillMissing col.values ((modeVal col.values).getD (Val.str "Unknown")) }) ∧
    ((missingCount col.values : ℚ) / (n : ℚ) ≤ 1/2 → col.dtype = DType.numeric →
      (handleMissingValues t "auto").lookupCol col.name =
        some { col with
          values := fillMissing col.values (Val.num (medianQ (numVals col.values))) }) := by
  have hl : t.lookupCol col.name = some col := lookupCol_self_of_nodup hnd hmem
  have hfold : (handleMissingValues t "auto").lookupCol col.name = autoColResult n col := by
    unfold handleMissingValues
    exact fold_auto_spec n (t.cols.map Col.name) t col.name col hnd hlen
      (List.mem_map_of_mem Col.name hmem) hl
  refine ⟨?_, ?_, ?_⟩
  · intro hfrac
    rw [hfold]
    unfold autoColResult
    have hm0 : ¬ missingCount col.values = 0 := by
      intro h0
      rw [h0] at hfrac
      norm_num at hfrac
    rw [if_neg hm0, if_pos hfrac]
  · intro hfrac hdt
    rw [hfold]
    unfold autoColResult
    by_cases hm0 : missingCount col.values = 0
    · rw [if_pos hm0, fillMissing_of_no_missing col.values _ hm0]
    · rw [if_neg hm0, if_neg (not_lt.mpr hfrac), if_pos hdt]
  · intro hfrac hdt
    rw [hfold]
    unfold autoColResult
    have hndt : ¬ (col.dtype = DType.obj ∨ col.dtype = DType.cat) := by
      rw [hdt]
      simp
    by_cases hm0 : missingCount col.values = 0
    · rw [if_pos hm0, fillMissing_of_no_missing col.values _ hm0]
    · rw [if_neg hm0, if_neg (not_lt.mpr hfrac), if_neg hndt]

/-- Concrete table for the `autoMissingPolicy` witness: a 3-row table with a
column over half missing, a categorical column with a mode, and a numeric
column. -/
def c5Table : Table :=
  ⟨[⟨"a", DType.obj, [none, none, some (Val.str "u")]⟩,
    ⟨"b", DType.obj, [some (Val.str "u"), some (Val.str "u"), none]⟩,
    ⟨"c", DType.numeric, [some (Val.num 1), some (Val.num 3), none]⟩]⟩

/-- Witness for `autoMissingPolicy` on `c5Table`. -/
theorem autoMissingPolicy_witness :
    ((c5Table.cols.map Col.name).Nodup ∧ c5Table.allLen 3 ∧
      ((2 : ℚ) / 3 > 1/2) ∧ ((1 : ℚ) / 3 ≤ 1/2) ∧
      missingCount [none, none, some (Val.str "u")] = 2 ∧
      missingCount [some (Val.str "u"), some (Val.str "u"), none] = 1 ∧
      missingCount [some (Val.num 1), some (Val.num 3), none] = 1) ∧
    (handleMissingValues c5Table "auto").lookupCol "a" = none ∧
    (handleMissingValues c5Table "auto").lookupCol "b" =
      some ⟨"b", DType.obj, fillMissing [some (Val.str "u"), some (Val.str "u"), none]
        ((modeVal [some (Val.str "u"), some (Val.str "u"), none]).getD (Val.str "Unknown"))⟩ ∧
    (handleMissingValues c5Table "auto").lookupCol "c" =
      some ⟨"c", DType.numeric, fillMissing [some (Val.num 1), some (Val.num 3), none]
        (Val.num (medianQ (numVals [some (Val.num 1), some (Val.num 3), none])))⟩ := by
  have hfa : ((missingCount [none, none, some (Val.str "u")] : ℚ) / (3 : ℚ) > 1/2) := by
    have h2 : missingCount [none, none, some (Val.str "u")] = 2 := by decide
    rw [h2]
    norm_num
  have hfb : ((missingCount [some (Val.str "u"), some (Val.str "u"), none] : ℚ) /
      (3 : ℚ) ≤ 1/2) := by
    have h1 : missingCount [some (Val.str "u"), some (Val.str "u"), none] = 1 := by decide
    rw [h1]
    norm_num
  have hfc : ((missingCount [some (Val.num 1), some (Val.num 3), none] : ℚ) /
      (3 : ℚ) ≤ 1/2) := by
    have h1 : missingCount [some (Val.num 1), some (Val.num 3), none] = 1 := by decide
    rw [h1]
    norm_num
  refine ⟨⟨by decide, by decide, by norm_num, by norm_num, by decide, by decide, by decide⟩,
    ?_, ?_, ?_⟩
  · exact (autoMissingPolicy c5Table 3 ⟨"a", DType.obj, [none, none, some (Val.str "u")]⟩
      (by decide) (by decide) (by decide)).1 hfa
  · exact (autoMissingPolicy c5Table 3
      ⟨"b", DType.obj, [some (Val.str "u"), some (Val.str "u"), none]⟩
      (by decide) (by decide) (by decide)).2.1 hfb (Or.inl rfl)
  · exact (autoMissingPolicy c5Table 3
      ⟨"c", DType.numeric, [some (Val.num 1), some (Val.num 3), none]⟩
      (by decide) (by decide) (by decide)).2.2 hfc rfl

/-! ### C1: numeric type promotion -/

/-- The number of cells whose string form parses as a number after stripping
the formatting characters (missing cells print as `"nan"` and never parse). -/
def numericParseCount (vs : List (Option Val)) : Nat :=
  (vs.filter (fun cell => (parseNumeric (stripFormatting (cellToStr cell))).isSome)).length

lemma parsedFilter_eq_numericParseCount (vs : List (Option Val)) :
    ((vs.map (fun cell => (parseNumeric (stripFormatting (cellToStr cell))).map Val.num)).filter
      (fun p => p ≠ none)).length = numericParseCount vs := by
  unfold numericParseCount
  induction vs with
  | nil => rfl
  | cons v vs ih =>
    rw [List.map_cons, List.filter_cons, List.filter_cons]
    cases hp : parseNumeric (stripFormatting (cellToStr v)) <;>
      (simp [hp]; simpa using ih)

/-- The per-column outcome of one `_convert_data_types` iteration, as a
function of the column alone. -/
def cdColResult (col : Col) : Col :=
  if col.dtype = DType.obj then
    if isDateColumn col.values then
      { col with dtype := DType.datetime, values := toDatetime col.values }
    else if (((col.values.map
          (fun cell => (parseNumeric (stripFormatting (cellToStr cell))).map Val.num)).filter
            (fun p => p ≠ none)).length : ℚ) /
        ((col.values.map
          (fun cell => (parseNumeric (stripFormatting (cellToStr cell))).map Val.num)).length : ℚ)
        > 8/10 then
      { col with dtype := DType.numeric, values :=
        col.values.map (fun cell => (parseNumeric (stripFormatting (cellToStr cell))).map Val.num) }
    else col
  else col

lemma cdStep_eq_none (t : Table) (c : String) (h : t.lookupCol c = none) :
    cdStep t c = t := by
  unfold cdStep
  rw [h]

lemma cdStep_eq (t : Table) (c : String) (col : Col) (h : t.lookupCol c = some col) :
    cdStep t c =
      if col.dtype = DType.obj then
        if isDateColumn col.values then t.setColTyped c DType.datetime (toDatetime col.values)
        else if (((col.values.map
              (fun cell => (parseNumeric (stripFormatting (cellToStr cell))).map Val.num)).filter
                (fun p => p ≠ none)).length : ℚ) /
            ((col.values.map
              (fun cell =>
                (parseNumeric (stripFormatting (cellToStr cell))).map Val.num)).length : ℚ)
            > 8/10 then
          t.setColTyped c DType.numeric
            (col.values.map
              (fun cell => (parseNumeric (stripFormatting (cellToStr cell))).map Val.num))
        else t
      else t := by
  unfold cdStep
  rw [h]

lemma cdStep_other (t : Table) (a c : String) (h : c ≠ a) :
    (cdStep t a).lookupCol c = t.lookupCol c := by
  cases hl : t.lookupCol a with
  | none => rw [cdStep_eq_none t a hl]
  | some col =>
    rw [cdStep_eq t a col hl]
    split_ifs with h1 h2 h3
    · exact lookupCol_setColTyped_other t a c _ _ h
    · exact lookupCol_setColTyped_other t a c _ _ h
    · rfl
    · rfl

lemma cdStep_self (t : Table) (c : String) (col : Col) (h : t.lookupCol c = some col) :
    (cdStep t c).lookupCol c = some (cdColResult col) := by
  rw [cdStep_eq t c col h]
  unfold cdColResult
  split_ifs with h1 h2 h3
  · exact lookupCol_setColTyped_self t c _ _ col h
  · exact lookupCol_setColTyped_self t c _ _ col h
  · exact h
  · exact h

lemma fold_cd_untouched (ns : List String) (c : String) (hc : c ∉ ns) :
    ∀ t : Table, (ns.foldl cdStep t).lookupCol c = t.lookupCol c := by
  induction ns with
  | nil => intro t; rfl
  | cons a ns ih =>
    intro t
    rw [List.foldl_cons, ih (fun hmem => hc (List.mem_cons_of_mem a hmem))]
    exact cdStep_other t a c (fun he => hc (he ▸ List.mem_cons_self a ns))

lemma fold_cd_spec (ns : List String) :
    ∀ (t : Table) (c : String) (col : Col), ns.Nodup → c ∈ ns → t.lookupCol c = some col →
      (ns.foldl cdStep t).lookupCol c = some (cdColResult col) := by
  induction ns with
  | nil => intro t c col _ hc; cases hc
  | cons a ns ih =>
    intro t c col hnd hc hl
    rw [List.foldl_cons]
    by_cases hac : c = a
    · subst hac
      rw [fold_cd_untouched ns c (List.nodup_cons.mp hnd).1]
      exact cdStep_self t c col hl
    · refine ih (cdStep t a) c col (List.nodup_cons.mp hnd).2 (List.mem_of_ne_of_mem hac hc) ?_
      rw [cdStep_other t a c hac]
      exact hl

lemma convertDataTypes_lookup (t : Table) (col : Col)
    (hnd : (t.cols.map Col.name).Nodup) (hmem : col ∈ t.cols) :
    (convertDataTypes t).lookupCol col.name = some (cdColResult col) := by
  unfold convertDataTypes
  exact fold_cd_spec (t.cols.map Col.name) t col.name col hnd
    (List.mem_map_of_mem Col.name hmem) (lookupCol_self_of_nodup hnd hmem)

/-- C1 amended: an object column is promoted to Numeric exactly when it does
not trigger the date-detection branch and STRICTLY more than 80% of all its
entries (missing entries counted as non-parsing, denominator the full row
count) parse as numbers after stripping `,` `$` `%`. -/
theorem typeNormalizer_promotion (t : Table) (col : Col)
    (hnd : (t.cols.map Col.name).Nodup) (hmem : col ∈ t.cols)
    (hobj : col.dtype = DType.obj) :
    ((convertDataTypes t).lookupCol col.name).map Col.dtype = some DType.numeric ↔
      (isDateColumn col.values = false ∧
        (numericParseCount col.values : ℚ) / (col.values.length : ℚ) > 8/10) := by
  rw [convertDataTypes_lookup t col hnd hmem]
  rw [Option.map_some']
  rw [Option.some_inj]
  unfold cdColResult
  rw [if_pos hobj]
  have hlenmap : ((col.values.map
      (fun cell => (parseNumeric (stripFormatting (cellToStr cell))).map Val.num)).length : ℚ) =
      (col.values.length : ℚ) := by
    rw [List.length_map]
  by_cases hdate : isDateColumn col.values
  · rw [if_pos hdate]
    simp [hdate]
  · rw [if_neg hdate]
    rw [parsedFilter_eq_numericParseCount, hlenmap]
    by_cases hfrac : (numericParseCount col.values : ℚ) / (col.values.length : ℚ) > 8/10
    · rw [if_pos hfrac]
      simp [Bool.eq_false_iff, hdate, hfrac]
    · rw [if_neg hfrac]
      simp only [hobj]
      simp [hfrac]

/-- The counterexample column: five present string values of which exactly
four parse as numbers. -/
def c1Vals : List (Option Val) :=
  [some (Val.str "1"), some (Val.str "2"), some (Val.str "3"), some (Val.str "4"),
    some (Val.str "abc")]

def c1Table : Table := ⟨[⟨"v", DType.obj, c1Vals⟩]⟩

/-- C1 counterexample. The claim fails on `_convert_data_types`: a free-text
column in which exactly 80% of the (all non-missing) values parse as numbers
is NOT promoted — the code requires strictly more than 0.8, while the claim
promises promotion at `at least 80%`. -/
theorem typeNormalizer_counterexample :
    ((convertDataTypes c1Table).lookupCol "v").map Col.dtype = some DType.obj ∧
    numericParseCount c1Vals = 4 ∧ (presentVals c1Vals).length = 5 ∧
    (numericParseCount c1Vals : ℚ) / ((presentVals c1Vals).length : ℚ) ≥ 80 / 100 := by
  have hcount : numericParseCount c1Vals = 4 := by decide
  have hpres : (presentVals c1Vals).length = 5 := by decide
  have hfold : (convertDataTypes c1Table).lookupCol "v" =
      some (cdColResult ⟨"v", DType.obj, c1Vals⟩) :=
    convertDataTypes_lookup c1Table ⟨"v", DType.obj, c1Vals⟩ (by decide) (by decide)
  have hcd : cdColResult ⟨"v", DType.obj, c1Vals⟩ = ⟨"v", DType.obj, c1Vals⟩ := by
    unfold cdColResult
    rw [if_pos rfl, if_neg (by decide)]
    rw [if_neg ?hfrac]
    case hfrac =>
      rw [parsedFilter_eq_numericParseCount]
      have hlm : ((c1Vals.map
          (fun cell =>
            (parseNumeric (stripFormatting (cellToStr cell))).map Val.num)).length : ℚ) =
          (5 : ℚ) := by
        rw [List.length_map]
        norm_num [c1Vals]
      rw [hlm, hcount]
      norm_num
  refine ⟨?_, hcount, hpres, ?_⟩
  · rw [hfold, hcd]
    rfl
  · rw [hcount, hpres]
    norm_num

/-- Witness column for `typeNormalizer_promotion`: monetary strings that all
parse after stripping, hence promoted. -/
def c1wVals : List (Option Val) :=
  [some (Val.str "$1,000"), some (Val.str "2"), some (Val.str "3")]

def c1wTable : Table := ⟨[⟨"m", DType.obj, c1wVals⟩]⟩

/-- Witness for `typeNormalizer_promotion`: a fully numeric-looking monetary
column is promoted, and the 4-of-5 column of the counterexample is not. -/
theorem typeNormalizer_promotion_witness :
    ((c1wTable.cols.map Col.name).Nodup ∧ isDateColumn c1wVals = false ∧
      numericParseCount c1wVals = 3 ∧
      (numericParseCount c1wVals : ℚ) / ((c1wVals).length : ℚ) > 8/10) ∧
    ((convertDataTypes c1wTable).lookupCol "m").map Col.dtype = some DType.numeric := by
  have h1 : numericParseCount c1wVals = 3 := by decide
  have hfrac : (numericParseCount c1wVals : ℚ) / ((c1wVals).length : ℚ) > 8/10 := by
    rw [h1]
    norm_num [c1wVals]
  refine ⟨⟨by decide, by decide, h1, hfrac⟩, ?_⟩
  exact (typeNormalizer_promotion c1wTable ⟨"m", DType.obj, c1wVals⟩
    (by decide) (by decide) rfl).mpr ⟨by decide, hfrac⟩

/-! ### C9: IQR outlier removal is a no-op on in-bounds tables -/

lemma maskFilter_all_true (vs : List (Option Val)) (mask : List Bool)
    (hlen : mask.length = vs.length) (hall : ∀ b ∈ mask, b = true) :
    maskFilter mask vs = vs := by
  induction vs generalizing mask with
  | nil =>
    cases mask with
    | nil => rfl
    | cons b bs => simp at hlen
  | cons v vs ih =>
    cases mask with
    | nil => simp at hlen
    | cons b bs =>
      have hb : b = true := hall b (List.mem_cons_self b bs)
      unfold maskFilter
      rw [List.zip_cons_cons, List.filter_cons_of_pos (by simp [hb]), List.map_cons]
      have := ih bs (by simpa using hlen) (fun b' hb' => hall b' (List.mem_cons_of_mem b hb'))
      unfold maskFilter at this
      rw [this]

lemma filterRows_all_true (t : Table) (n : Nat) (mask : List Bool)
    (hlen : t.allLen n) (hmlen : mask.length = n) (hall : ∀ b ∈ mask, b = true) :
    t.filterRows mask = t := by
  unfold Table.filterRows
  cases t with
  | mk cols =>
    simp only
    congr 1
    have : ∀ col ∈ cols,
        (fun c => { c with values := maskFilter mask c.values }) col = id col := by
      intro col hmem
      have : maskFilter mask col.values = col.values :=
        maskFilter_all_true col.values mask (by rw [hmlen, hlen col hmem]) hall
      simp [this]
    rw [List.map_congr_left this, List.map_id]

lemma outlierStep_iqr_id (t : Table) (n : Nat) (c : String) (col : Col)
    (hlen : t.allLen n) (hl : t.lookupCol c = some col)
    (hin : ∀ cell ∈ col.values, ∃ q, cell = some (Val.num q) ∧
      iqrLower (numVals col.values) ≤ q ∧ q ≤ iqrUpper (numVals col.values)) :
    outlierStep "iqr" t c = t := by
  unfold outlierStep
  rw [hl]
  simp only [if_pos rfl]
  apply filterRows_all_true t n _ hlen
  · rw [List.length_map]
    exact hlen col (lookupCol_mem hl).1
  · intro b hb
    obtain ⟨cell, hcell, hbe⟩ := List.mem_map.mp hb
    obtain ⟨q, hq, hlo, hhi⟩ := hin cell hcell
    rw [← hbe, hq]
    simp [hlo, hhi]

lemma fold_outlier_id (ns : List String) (t : Table)
    (h : ∀ c ∈ ns, outlierStep "iqr" t c = t) :
    ns.foldl (outlierStep "iqr") t = t := by
  induction ns with
  | nil => rfl
  | cons a as ih =>
    rw [List.foldl_cons, h a (List.mem_cons_self a as)]
    exact ih (fun c hc => h c (List.mem_cons_of_mem a hc))

/-- C9: on a well-formed table all of whose numeric-column entries are present
values lying within their own column's IQR bounds
`[Q1 - 1.5*IQR, Q3 + 1.5*IQR]`, IQR outlier removal returns the table
unchanged — a second pass after outliers are removed is a no-op. -/
theorem iqrRemoval_noop (t : Table) (n : Nat)
    (hnd : (t.cols.map Col.name).Nodup) (hlen : t.allLen n)
    (hin : ∀ col ∈ t.cols, col.dtype = DType.numeric →
      ∀ cell ∈ col.values, ∃ q, cell = some (Val.num q) ∧
        iqrLower (numVals col.values) ≤ q ∧ q ≤ iqrUpper (numVals col.values)) :
    removeOutliers t "iqr" = t := by
  unfold removeOutliers
  apply fold_outlier_id
  intro c hc
  obtain ⟨col, hcolmem, hname⟩ := List.mem_map.mp hc
  have hmem : col ∈ t.cols := List.mem_of_mem_filter hcolmem
  have hnum : col.dtype = DType.numeric := by
    have := List.of_mem_filter hcolmem
    simpa using this
  have hl : t.lookupCol c = some col := by
    rw [← hname]
    exact lookupCol_self_of_nodup hnd hmem
  exact outlierStep_iqr_id t n c col hlen hl (hin col hmem hnum)

/-- Witness table for `iqrRemoval_noop`: a numeric column whose two values lie
inside its interpolated IQR bounds. -/
def c9Table : Table :=
  ⟨[⟨"x", DType.numeric, [some (Val.num 5), some (Val.num 7)]⟩]⟩

/-- Witness for `iqrRemoval_noop` at `c9Table` (bounds `[4, 8]`). -/
theorem iqrRemoval_noop_witness :
    (iqrLower (numVals [some (Val.num 5), some (Val.num 7)]) = 4 ∧
      iqrUpper (numVals [some (Val.num 5), some (Val.num 7)]) = 8) ∧
    removeOutliers c9Table "iqr" = c9Table := by
  have hnv : numVals [some (Val.num 5), some (Val.num 7)] = [5, 7] := by decide
  have hsort : sortLe (fun a b => decide (a ≤ b)) [(5 : ℚ), 7] = [5, 7] := by decide
  have hq1 : quantileQ [(5 : ℚ), 7] (1/4) = 11/2 := by
    unfold quantileQ
    rw [hsort]
    norm_num
  have hq3 : quantileQ [(5 : ℚ), 7] (3/4) = 13/2 := by
    unfold quantileQ
    rw [hsort]
    norm_num
  have hlo : iqrLower (numVals [some (Val.num 5), some (Val.num 7)]) = 4 := by
    unfold iqrLower
    rw [hnv, hq1, hq3]
    norm_num
  have hhi : iqrUpper (numVals [some (Val.num 5), some (Val.num 7)]) = 8 := by
    unfold iqrUpper
    rw [hnv, hq1, hq3]
    norm_num
  refine ⟨⟨hlo, hhi⟩, ?_⟩
  apply iqrRemoval_noop c9Table 2 (by decide) (by decide)
  intro col hmem hnum cell hcell
  have hcol : col = ⟨"x", DType.numeric, [some (Val.num 5), some (Val.num 7)]⟩ := by
    simpa [c9Table] using hmem
  subst hcol
  rcases List.mem_cons.mp hcell with rfl | hcell'
  · exact ⟨5, rfl, by rw [hlo]; norm_num, by rw [hhi]; norm_num⟩
  · rcases List.mem_cons.mp hcell' with rfl | hcell''
    · exact ⟨7, rfl, by rw [hlo]; norm_num, by rw [hhi]; norm_num⟩
    · cases hcell''

/-! ### C10: `clean_dataframe` never mutates its input frame -/

/-- Heap extension: the new heap is at least as long and agrees with the old
one on every old reference. -/
def HExt (h₀ h : Heap) : Prop :=
  h₀.length ≤ h.length ∧ ∀ i < h₀.length, hget h i = hget h₀ i

lemma HExt.same (h : Heap) : HExt h h := ⟨le_refl _, fun _ _ => rfl⟩

lemma HExt.step {h₀ h₁ h₂ : Heap} (a : HExt h₀ h₁) (b : HExt h₁ h₂) : HExt h₀ h₂ :=
  ⟨le_trans a.1 b.1, fun i hi => (b.2 i (lt_of_lt_of_le hi a.1)).trans (a.2 i hi)⟩

lemma hext_halloc (h : Heap) (t : Table) : HExt h (halloc h t).1 := by
  constructor
  · simp [halloc]
  · intro i hi
    unfold halloc hget
    rw [List.getD_eq_getElem?_getD, List.getD_eq_getElem?_getD,
      List.getElem?_append_left hi]

lemma hext_hset {h₀ h : Heap} (ext : HExt h₀ h) (r : Nat) (hr : h₀.length ≤ r) (t : Table) :
    HExt h₀ (hset h r t) := by
  constructor
  · rw [hset, List.length_set]
    exact ext.1
  · intro i hi
    rw [← ext.2 i hi]
    unfold hset hget
    rw [List.getD_eq_getElem?_getD, List.getD_eq_getElem?_getD,
      List.getElem?_set_ne (by omega)]

/-- The invariant every heap-level helper preserves relative to the entry heap:
the heap only extends, and the working reference points past the entry heap. -/
def HInv (h₀ : Heap) (s : Heap × Nat) : Prop :=
  HExt h₀ s.1 ∧ h₀.length ≤ s.2

lemma hinv_halloc {h₀ : Heap} {s : Heap × Nat} (hs : HInv h₀ s) (t : Table) :
    HInv h₀ (halloc s.1 t) := by
  refine ⟨HExt.step hs.1 (hext_halloc s.1 t), ?_⟩
  show h₀.length ≤ s.1.length
  exact hs.1.1

lemma hinv_hset {h₀ : Heap} {s : Heap × Nat} (hs : HInv h₀ s) (t : Table) :
    HInv h₀ (hset s.1 s.2 t, s.2) :=
  ⟨hext_hset hs.1 s.2 hs.2 t, hs.2⟩

lemma hinv_chain {h₀ : Heap} {s₁ : Heap × Nat} {s₂ : Heap × Nat}
    (h1 : HInv h₀ s₁) (h2 : HInv s₁.1 s₂) : HInv h₀ s₂ :=
  ⟨HExt.step h1.1 h2.1, le_trans h1.1.1 h2.2⟩

lemma foldl_preserves {σ α : Type} (P : σ → Prop) (f : σ → α → σ)
    (hf : ∀ s a, P s → P (f s a)) :
    ∀ (l : List α) (s : σ), P s → P (l.foldl f s) := by
  intro l
  induction l with
  | nil => intro s hs; exact hs
  | cons a as ih => intro s hs; exact ih _ (hf s a hs)

lemma hmStepH_hinv (h₀ : Heap) (strategy : String) (s : Heap × Nat) (c : String)
    (hs : HInv h₀ s) : HInv h₀ (hmStepH strategy s c) := by
  unfold hmStepH
  dsimp only
  cases hl : (hget s.1 s.2).lookupCol c with
  | none =>
    simp only [hl]
    exact hs
  | some col =>
    simp only [hl]
    split_ifs
    all_goals
      first
        | exact hs
        | exact hinv_halloc hs _
        | exact hinv_hset hs _

lemma handleMissingValuesH_hinv (h : Heap) (r : Nat) (strategy : String) :
    HInv h (handleMissingValuesH h r strategy) := by
  unfold handleMissingValuesH
  apply foldl_preserves (HInv h) (hmStepH strategy) (hmStepH_hinv h strategy)
  exact ⟨hext_halloc h _, le_refl _⟩

lemma cdStepH_hinv (h₀ : Heap) (s : Heap × Nat) (c : String) (hs : HInv h₀ s) :
    HInv h₀ (cdStepH s c) :=
  hinv_hset hs _

lemma convertDataTypesH_hinv (h : Heap) (r : Nat) : HInv h (convertDataTypesH h r) := by
  unfold convertDataTypesH
  apply foldl_preserves (HInv h) cdStepH (cdStepH_hinv h)
  exact ⟨hext_halloc h _, le_refl _⟩

lemma outlierStepH_hinv (h₀ : Heap) (method : String) (s : Heap × Nat) (c : String)
    (hs : HInv h₀ s) : HInv h₀ (outlierStepH method s c) :=
  hinv_halloc hs _

lemma removeOutliersH_hinv (h : Heap) (r : Nat) (method : String) :
    HInv h (removeOutliersH h r method) := by
  unfold removeOutliersH
  apply foldl_preserves (HInv h) (outlierStepH method) (outlierStepH_hinv h method)
  exact ⟨hext_halloc h _, le_refl _⟩

lemma cleanDataframeH_hinv (h : Heap) (r : Nat) (opts : CleanOptions) :
    HInv h (cleanDataframeH h r opts) := by
  unfold cleanDataframeH
  dsimp only
  set s1 := halloc h (hget h r) with hs1
  set s2 := halloc s1.1 (dropAllMissingRows (hget s1.1 s1.2)) with hs2
  set s3 := halloc s2.1 (dropAllMissingCols (hget s2.1 s2.2)) with hs3
  set s4 := handleMissingValuesH s3.1 s3.2 opts.missing_strategy with hs4
  set s5 := convertDataTypesH s4.1 s4.2 with hs5
  set s6 := if opts.remove_duplicates then halloc s5.1 (dropDuplicates (hget s5.1 s5.2)) else s5
    with hs6
  have h1 : HInv h s1 := ⟨hext_halloc h _, le_refl _⟩
  have h2 : HInv h s2 := hinv_halloc h1 _
  have h3 : HInv h s3 := hinv_halloc h2 _
  have h4 : HInv h s4 := hinv_chain h3 (handleMissingValuesH_hinv s3.1 s3.2 _)
  have h5 : HInv h s5 := hinv_chain h4 (convertDataTypesH_hinv s4.1 s4.2)
  have h6 : HInv h s6 := by
    by_cases hd : opts.remove_duplicates
    · rw [hs6, if_pos hd]
      exact hinv_halloc h5 _
    · rw [hs6, if_neg hd]
      exact h5
  by_cases ho : opts.remove_outliers
  · rw [if_pos ho]
    exact hinv_chain h6 (removeOutliersH_hinv s6.1 s6.2 _)
  · rw [if_neg ho]
    exact h6

/-- C10: `clean_dataframe` leaves the frame it is given unchanged — after the
call, dereferencing the input still yields the original table — and the
reference it returns is to a frame allocated inside the call (a new value),
never the input reference. -/
theorem cleanDataframe_pure (h : Heap) (r : Nat) (opts : CleanOptions) (hr : r < h.length) :
    hget (cleanDataframeH h r opts).1 r = hget h r ∧
    h.length ≤ (cleanDataframeH h r opts).2 ∧ (cleanDataframeH h r opts).2 ≠ r := by
  have hinv := cleanDataframeH_hinv h r opts
  refine ⟨hinv.1.2 r hr, hinv.2, ?_⟩
  intro he
  have := hinv.2
  omega

/-- A concrete one-column frame for the `cleanDataframe_pure` witness. -/
def c10Table : Table := ⟨[⟨"x", DType.numeric, [some (Val.num 1), some (Val.num 2)]⟩]⟩

/-- Witness for `cleanDataframe_pure` on a one-frame heap with the default
options. -/
theorem cleanDataframe_pure_witness :
    (0 < ([c10Table] : Heap).length) ∧
    hget (cleanDataframeH [c10Table] 0 ({} : CleanOptions)).1 0 = hget [c10Table] 0 ∧
    (cleanDataframeH [c10Table] 0 ({} : CleanOptions)).2 ≠ 0 := by
  have hlt : 0 < ([c10Table] : Heap).length := by simp
  exact ⟨hlt, (cleanDataframe_pure [c10Table] 0 ({} : CleanOptions) hlt).1,
    (cleanDataframe_pure [c10Table] 0 ({} : CleanOptions) hlt).2.2⟩

/-! ### C2: chart byte-budget policy -/

lemma b64Chunks_length : ∀ l : List Nat, (b64Chunks l).length = 4 * ((l.length + 2) / 3)
  | [] => by simp [b64Chunks]
  | [a] => by simp [b64Chunks]
  | [a, b] => by simp [b64Chunks]
  | a :: b :: c :: rest => by
    have ih := b64Chunks_length rest
    simp only [b64Chunks, List.length_append, List.length_cons, List.length_nil, ih]
    have h3 : rest.length + 1 + 1 + 1 + 2 = rest.length + 2 + 3 := by omega
    rw [h3, Nat.add_div_right _ (by norm_num)]
    omega

lemma b64Encode_length (l : List Nat) : (b64Encode l).length = 4 * ((l.length + 2) / 3) := by
  have : (b64Encode l).length = (b64Chunks l).length := rfl
  rw [this, b64Chunks_length]

/-- First render of the first counterexample figure: a 90,000-byte PNG whose
base64 encoding is 120,000 bytes; the dpi-50 render is tiny. -/
def c2render1 : Nat → List Nat := fun d => if d = 50 then [0] else List.replicate 90000 0

/-- A figure still huge at dpi 50: 150,000 bytes at first, 140,000 after the
downgrade retry. -/
def c2render2 : Nat → List Nat :=
  fun d => if d = 50 then List.replicate 140000 0 else List.replicate 150000 0

/-- C2 counterexample. The claim fails twice on `_fig_to_base64`: the byte
budget is compared against the RAW PNG size, not the base64-encoded size, so a
90,000-byte PNG whose base64 encoding (120,000 bytes) exceeds the 100,000-byte
budget is emitted without any re-render; and when the single dpi-50 retry is
still over budget the emitted image exceeds the ceiling. -/
theorem chartBudget_counterexample :
    ((b64Encode (c2render1 defaultDpi)).length > maxSizeBytes ∧
      chosenImage c2render1 defaultDpi maxSizeBytes = c2render1 defaultDpi ∧
      c2render1 defaultDpi ≠ c2render1 50) ∧
    (chosenImage c2render2 defaultDpi maxSizeBytes = c2render2 50 ∧
      (chosenImage c2render2 defaultDpi maxSizeBytes).length > maxSizeBytes) := by
  have h1 : c2render1 defaultDpi = List.replicate 90000 0 := rfl
  have h1b : c2render1 50 = [0] := rfl
  have h2 : c2render2 defaultDpi = List.replicate 150000 0 := rfl
  have h2b : c2render2 50 = List.replicate 140000 0 := rfl
  have hlen1 : (c2render1 defaultDpi).length = 90000 := by
    rw [h1, List.length_replicate]
  have hlen2 : (c2render2 defaultDpi).length = 150000 := by
    rw [h2, List.length_replicate]
  have hc1 : chosenImage c2render1 defaultDpi maxSizeBytes = c2render1 defaultDpi := by
    unfold chosenImage
    rw [hlen1, maxSizeBytes]
    norm_num
  have hc2 : chosenImage c2render2 defaultDpi maxSizeBytes = c2render2 50 := by
    unfold chosenImage
    rw [hlen2, maxSizeBytes]
    norm_num
  refine ⟨⟨?_, hc1, ?_⟩, hc2, ?_⟩
  · rw [b64Encode_length, hlen1, maxSizeBytes]
    norm_num
  · intro h
    have hlen := congrArg List.length h
    rw [hlen1, h1b] at hlen
    simp at hlen
  · rw [hc2, h2b, List.length_replicate, maxSizeBytes]
    norm_num

/-- C2 amended: `_fig_to_base64` compares the RAW PNG byte length against the
100,000-byte budget; when it fits the first render is encoded, otherwise
exactly one re-render at dpi 50 is encoded and returned unconditionally (the
result may still exceed the budget); the emitted data URI is always the
22-character prefix plus the base64 of the chosen image. -/
theorem chartBudget_policy (render : Nat → List Nat) (dpi maxBytes : Nat) :
    ((render dpi).length ≤ maxBytes →
      figToBase64 render dpi maxBytes = "data:image/png;base64," ++ b64Encode (render dpi)) ∧
    ((render dpi).length > maxBytes →
      figToBase64 render dpi maxBytes = "data:image/png;base64," ++ b64Encode (render 50)) ∧
    (figToBase64 render dpi maxBytes).length =
      22 + 4 * (((chosenImage render dpi maxBytes).length + 2) / 3) := by
  refine ⟨?_, ?_, ?_⟩
  · intro h
    have hc : chosenImage render dpi maxBytes = render dpi := by
      unfold chosenImage
      simp [Nat.not_lt.mpr h]
    unfold figToBase64
    rw [hc]
  · intro h
    have hc : chosenImage render dpi maxBytes = render 50 := by
      unfold chosenImage
      simp [h]
    unfold figToBase64
    rw [hc]
  · unfold figToBase64
    rw [String.length_append, b64Encode_length]
    rfl

/-- Witness for `chartBudget_policy` at a concrete figure. -/
theorem chartBudget_policy_witness :
    ([7].length > 0 ∧
      figToBase64 (fun _ => [7]) 100 0 = "data:image/png;base64," ++ b64Encode [7]) ∧
    ([7].length ≤ 2 ∧
      figToBase64 (fun _ => [7]) 100 2 = "data:image/png;base64," ++ b64Encode [7]) := by
  constructor
  · exact ⟨by norm_num, (chartBudget_policy (fun _ => [7]) 100 0).2.1 (by norm_num)⟩
  · exact ⟨by norm_num, (chartBudget_policy (fun _ => [7]) 100 2).1 (by norm_num)⟩

/-! ### C7: collaborator-response fallback -/

/-- A collaborator response that parses as JSON but is not the expected
structure (no `answers`, no `success`): the literal text `{"foo": 1}`. -/
def c7text : String := "\x7b\"foo\": 1\x7d"

/-- A response with a brace span that is not valid JSON. -/
def c7badJson : String := "\x7boops\x7d"

/-- A response with no brace span at all. -/
def c7noJson : String := "hello"

/-- C7 counterexample. The claim fails on `_parse_analysis_response`: the text
`{"foo": 1}` is not parseable as the expected structure (it has no `answers`,
`insights` or `success` fields), yet the parser returns the parsed object
verbatim instead of the raw-text fallback — its `answers` field is absent
rather than containing the raw response text. -/
theorem planFallback_counterexample :
    parseAnalysisResponse c7text = Json.obj [("foo", Json.num 1)] ∧
    jLookup (parseAnalysisResponse c7text) "answers" = none ∧
    jLookup (parseAnalysisResponse c7text) "success" = none :=
  ⟨rfl, rfl, rfl⟩

/-- C7 amended: the raw-text fallback (answers = the sole raw text, insights =
the raw text, success = true, no visualization, no computations) applies
exactly when no `\x7b...\x7d` span exists or the extracted span fails JSON
parsing; a span that parses as any JSON value is returned verbatim, even when
it lacks every expected field. -/
theorem planFallback_policy (text : String) :
    (extractJsonSpan text = none →
      parseAnalysisResponse text = Json.obj [("answers", Json.arr [Json.str text]),
        ("insights", Json.str text), ("needs_visualization", Json.bool false),
        ("requires_computation", Json.bool false), ("success", Json.bool true)]) ∧
    (∀ s, extractJsonSpan text = some s → jsonParse s = none →
      parseAnalysisResponse text = Json.obj [("answers", Json.arr [Json.str text]),
        ("insights", Json.str text), ("needs_visualization", Json.bool false),
        ("requires_computation", Json.bool false), ("success", Json.bool true)]) ∧
    (∀ s j, extractJsonSpan text = some s → jsonParse s = some j →
      parseAnalysisResponse text = j) := by
  refine ⟨?_, ?_, ?_⟩
  · intro h
    simp [parseAnalysisResponse, h, fallbackResponse]
  · intro s hs hp
    simp [parseAnalysisResponse, hs, hp, fallbackResponse]
  · intro s j hs hp
    simp [parseAnalysisResponse, hs, hp]

/-- Witness for `planFallback_policy` on concrete unparseable responses. -/
theorem planFallback_policy_witness :
    (extractJsonSpan c7noJson = none ∧
      parseAnalysisResponse c7noJson = Json.obj [("answers", Json.arr [Json.str c7noJson]),
        ("insights", Json.str c7noJson), ("needs_visualization", Json.bool false),
        ("requires_computation", Json.bool false), ("success", Json.bool true)]) ∧
    (extractJsonSpan c7badJson = some c7badJson ∧ jsonParse c7badJson = none ∧
      parseAnalysisResponse c7badJson = Json.obj [("answers", Json.arr [Json.str c7badJson]),
        ("insights", Json.str c7badJson), ("needs_visualization", Json.bool false),
        ("requires_computation", Json.bool false), ("success", Json.bool true)]) := by
  refine ⟨⟨rfl, ?_⟩, rfl, rfl, ?_⟩
  · exact (planFallback_policy c7noJson).1 rfl
  · exact (planFallback_policy c7badJson).2.1 c7badJson rfl rfl

/-! ### C4 and C6: regression computation and per-computation failures -/

/-- The spec's 3-row scenario table: columns x, y with pairs (1,2), (2,4), (3,6). -/
def c4Table : Table :=
  ⟨[⟨"x", DType.numeric, [some (Val.num 1), some (Val.num 2), some (Val.num 3)]⟩,
    ⟨"y", DType.numeric, [some (Val.num 2), some (Val.num 4), some (Val.num 6)]⟩]⟩

def c4Files : List (String × Table) := [("data.csv", c4Table)]

def c4Spec : CompSpec := ⟨some "regression", some "data.csv", ["x", "y"]⟩

/-- The scenario table extended by one row whose y value is missing. -/
def c4mTable : Table :=
  ⟨[⟨"x", DType.numeric,
      [some (Val.num 1), some (Val.num 2), some (Val.num 3), some (Val.num 4)]⟩,
    ⟨"y", DType.numeric, [some (Val.num 2), some (Val.num 4), some (Val.num 6), none]⟩]⟩

def c4mFiles : List (String × Table) := [("data.csv", c4mTable)]

lemma olsSlope_scenario : olsSlope [1, 2, 3] [2, 4, 6] = 2 := by
  norm_num [olsSlope, cSP, cSS, meanQ]

lemma olsIntercept_scenario : olsIntercept [1, 2, 3] [2, 4, 6] = 0 := by
  norm_num [olsIntercept, olsSlope, cSP, cSS, meanQ]

lemma olsR2_scenario : olsR2 [1, 2, 3] [2, 4, 6] = 1 := by
  norm_num [olsR2, olsIntercept, olsSlope, cSP, cSS, meanQ]

/-- C4 counterexample. The claim fails on `_perform_computations`: rows with a
missing value are NOT excluded pairwise — the NaN reaches sklearn, the fit
raises, and the computation is recorded as an error, so no regression result
is produced at all, although the pairwise-cleaned data would have produced
slope 2, intercept 0, R² 1. -/
theorem regression_counterexample :
    dlookup "regression_x_y" (performComputations [c4Spec] c4mFiles) = none ∧
    performComputations [c4Spec] c4mFiles =
      [("computation_error_regression", CompResult.errVal "Input contains NaN")] ∧
    olsSlope [1, 2, 3] [2, 4, 6] = 2 ∧ olsIntercept [1, 2, 3] [2, 4, 6] = 0 ∧
    olsR2 [1, 2, 3] [2, 4, 6] = 1 :=
  ⟨rfl, rfl, olsSlope_scenario, olsIntercept_scenario, olsR2_scenario⟩

/-- C4 amended: the regression computation fits ordinary least squares of y on
x over the rows as they stand — a missing value in either column is not
excluded but makes the whole computation fail and be recorded under
`computation_error_regression`; on the all-present 3-row scenario table it
records slope 2.0, intercept 0.0, R² 1.0. -/
theorem regression_policy :
    performComputations [c4Spec] c4Files = [("regression_x_y", CompResult.regrVal 1 2 0)] ∧
    (∀ (files : List (String × Table)) (c : CompSpec) (ds : String) (t : Table)
        (xs ys : List (Option ℚ)) (acc : List (String × CompResult)),
      c.ctype = some "regression" → 2 ≤ c.columns.length → c.data_source = some ds →
      dlookup ds files = some t →
      lookupNumVals t (c.columns.getD 0 "") = Except.ok xs →
      lookupNumVals t (c.columns.getD 1 "") = Except.ok ys →
      ((xs.any (fun v => v = none) ∨ ys.any (fun v => v = none) →
        compStep files acc c =
          dinsert "computation_error_regression"
            (CompResult.errVal "Input contains NaN") acc) ∧
      (¬ (xs.any (fun v => v = none) ∨ ys.any (fun v => v = none)) →
        compStep files acc c =
          dinsert ("regression_" ++ c.columns.getD 0 "" ++ "_" ++ c.columns.getD 1 "")
            (CompResult.regrVal (olsR2 (xs.filterMap id) (ys.filterMap id))
              (olsSlope (xs.filterMap id) (ys.filterMap id))
              (olsIntercept (xs.filterMap id) (ys.filterMap id))) acc))) := by
  constructor
  · have h : performComputations [c4Spec] c4Files =
        [("regression_x_y", CompResult.regrVal (olsR2 [1, 2, 3] [2, 4, 6])
          (olsSlope [1, 2, 3] [2, 4, 6]) (olsIntercept [1, 2, 3] [2, 4, 6]))] := rfl
    rw [h, olsR2_scenario, olsSlope_scenario, olsIntercept_scenario]
  · intro files c ds t xs ys acc hct hlen hds hfile hx hy
    simp only [List.getD_eq_getElem?_getD] at hx hy
    constructor
    · intro hmiss
      rcases hmiss with h | h
      · simp [compStep, hds, hfile, hct, hlen, hx, hy, h]
      · simp [compStep, hds, hfile, hct, hlen, hx, hy, h]
    · intro hmiss
      have hnx : ¬ (none ∈ xs ∨ none ∈ ys) := by simpa using hmiss
      simp [compStep, hds, hfile, hct, hlen, hx, hy, hnx]

/-- Witness for `regression_policy` at the missing-value table. -/
theorem regression_policy_witness :
    (c4Spec.ctype = some "regression" ∧ 2 ≤ c4Spec.columns.length ∧
      c4Spec.data_source = some "data.csv" ∧ dlookup "data.csv" c4mFiles = some c4mTable ∧
      lookupNumVals c4mTable "x" = Except.ok [some 1, some 2, some 3, some 4] ∧
      lookupNumVals c4mTable "y" = Except.ok [some 2, some 4, some 6, none]) ∧
    compStep c4mFiles [] c4Spec =
      dinsert "computation_error_regression" (CompResult.errVal "Input contains NaN") [] := by
  refine ⟨⟨rfl, by decide, rfl, rfl, rfl, rfl⟩, ?_⟩
  exact ((regression_policy.2 c4mFiles c4Spec "data.csv" c4mTable
    [some 1, some 2, some 3, some 4] [some 2, some 4, some 6, none] []
    rfl (by decide) rfl rfl rfl rfl).1 (by decide))

/-- A computation list whose first entry names a nonexistent table. -/
def c6Specs : List CompSpec := [⟨some "correlation", some "ghost.csv", ["x", "y"]⟩, c4Spec]

/-- C6 counterexample. The claim fails on `_perform_computations`: a
computation whose `data_source` does not resolve is skipped by `continue`
with NOTHING recorded — the results of running a bad-table correlation
followed by a valid regression contain only the regression entry and no
record of the failed computation. -/
theorem missingRef_counterexample :
    performComputations c6Specs c4Files = [("regression_x_y", CompResult.regrVal 1 2 0)] ∧
    dlookup "computation_error_correlation" (performComputations c6Specs c4Files) = none := by
  have h : performComputations c6Specs c4Files =
      [("regression_x_y", CompResult.regrVal (olsR2 [1, 2, 3] [2, 4, 6])
        (olsSlope [1, 2, 3] [2, 4, 6]) (olsIntercept [1, 2, 3] [2, 4, 6]))] := rfl
  constructor
  · rw [h, olsR2_scenario, olsSlope_scenario, olsIntercept_scenario]
  · rfl

/-- C6 amended: a computation naming a nonexistent table (or with no
`data_source` at all) is silently skipped — nothing is recorded — while a
computation whose column reference does not resolve is recorded as a
per-computation error under `computation_error_{type}`; in every case the
remaining computations still execute on the accumulated results. -/
theorem missingRef_policy (files : List (String × Table)) (acc : List (String × CompResult))
    (c : CompSpec) (cs : List CompSpec) :
    (c.data_source = none →
      (c :: cs).foldl (compStep files) acc = cs.foldl (compStep files) acc) ∧
    (∀ ds, c.data_source = some ds → dlookup ds files = none →
      (c :: cs).foldl (compStep files) acc = cs.foldl (compStep files) acc) ∧
    (∀ ds t e, c.data_source = some ds → dlookup ds files = some t →
      c.ctype = some "correlation" → 2 ≤ c.columns.length →
      lookupNumVals t (c.columns.getD 0 "") = Except.error e →
      (c :: cs).foldl (compStep files) acc =
        cs.foldl (compStep files)
          (dinsert "computation_error_correlation" (CompResult.errVal e) acc)) ∧
    (∀ ds t xs e, c.data_source = some ds → dlookup ds files = some t →
      c.ctype = some "correlation" → 2 ≤ c.columns.length →
      lookupNumVals t (c.columns.getD 0 "") = Except.ok xs →
      lookupNumVals t (c.columns.getD 1 "") = Except.error e →
      (c :: cs).foldl (compStep files) acc =
        cs.foldl (compStep files)
          (dinsert "computation_error_correlation" (CompResult.errVal e) acc)) := by
  refine ⟨?_, ?_, ?_, ?_⟩
  · intro h
    rw [List.foldl_cons]
    congr 1
    simp only [compStep, h]
  · intro ds hds hmiss
    rw [List.foldl_cons]
    congr 1
    simp only [compStep, hds, hmiss]
  · intro ds t e hds hfile hct hlen herr
    rw [List.foldl_cons]
    congr 1
    simp only [compStep, hds, hfile, hct, herr]
    simp [hlen]
  · intro ds t xs e hds hfile hct hlen hx herr
    rw [List.foldl_cons]
    congr 1
    simp only [compStep, hds, hfile, hct, hx, herr]
    simp [hlen]

/-- Witness for `missingRef_policy` on concrete bad references. -/
theorem missingRef_policy_witness :
    (dlookup "ghost.csv" c4Files = none ∧
      (⟨some "correlation", some "ghost.csv", ["x", "y"]⟩ :: [c4Spec]).foldl
        (compStep c4Files) [] = [c4Spec].foldl (compStep c4Files) []) ∧
    (lookupNumVals c4Table "a" = Except.error "'a'" ∧
      ([⟨some "correlation", some "data.csv", ["a", "y"]⟩] : List CompSpec).foldl
        (compStep c4Files) [] =
        ([] : List CompSpec).foldl (compStep c4Files)
          (dinsert "computation_error_correlation" (CompResult.errVal "'a'") [])) := by
  constructor
  · exact ⟨rfl, (missingRef_policy c4Files []
      ⟨some "correlation", some "ghost.csv", ["x", "y"]⟩ [c4Spec]).2.1 "ghost.csv" rfl rfl⟩
  · exact ⟨rfl, (missingRef_policy c4Files []
      ⟨some "correlation", some "data.csv", ["a", "y"]⟩ []).2.2.1 "data.csv" c4Table "'a'"
      rfl rfl rfl (by decide) rfl⟩

/-! ### C3: per-instance encoder/scaler state in `prepare_for_ml` -/

lemma dlookup_isSome_iff {α : Type} (k : String) (m : List (String × α)) :
    (dlookup k m).isSome ↔ k ∈ m.map Prod.fst := by
  induction m with
  | nil => simp [dlookup]
  | cons p ps ih =>
    by_cases hpk : p.1 = k
    · simp [dlookup, List.find?_cons, hpk]
    · simp only [dlookup, List.find?_cons] at ih ⊢
      rw [decide_eq_false hpk]
      simp only [ih]
      simp [List.mem_cons]
      intro h
      exact absurd h.symm hpk

lemma dinsert_keys {α : Type} (k' : String) (v : α) (m : List (String × α)) :
    (dinsert k' v m).map Prod.fst =
      if m.any (fun p => p.1 = k') then m.map Prod.fst else m.map Prod.fst ++ [k'] := by
  unfold dinsert
  by_cases h : m.any (fun p => p.1 = k') = true
  · simp only [h, if_true, List.map_map]
    apply List.map_congr_left
    intro p _
    by_cases hp : p.1 = k'
    · simp [hp]
    · simp [hp]
  · simp only [h]
    simp only [Bool.false_eq_true, if_false, List.map_append, List.map_cons, List.map_nil]

lemma dlookup_dinsert_isSome {α : Type} (k k' : String) (v : α) (m : List (String × α))
    (h : (dlookup k m).isSome) : (dlookup k (dinsert k' v m)).isSome := by
  rw [dlookup_isSome_iff] at h ⊢
  rw [dinsert_keys]
  by_cases hany : m.any (fun p => p.1 = k') = true
  · simpa [hany] using h
  · simp only [hany]
    simp only [Bool.false_eq_true, if_false]
    exact List.mem_append_left _ h

lemma foldl_dinsert_isSome {α β : Type} (key : β → String) (val : β → α) (l : List β)
    (k : String) :
    ∀ m : List (String × α), (dlookup k m).isSome →
      (dlookup k (l.foldl (fun acc c => dinsert (key c) (val c) acc) m)).isSome := by
  induction l with
  | nil => intro m h; exact h
  | cons c cs ih =>
    intro m h
    exact ih _ (dlookup_dinsert_isSome k (key c) (val c) m h)

/-- First table of the counterexample: one categorical column `a`. -/
def c3t1 : Table := ⟨[⟨"a", DType.obj, [some (Val.str "x")]⟩]⟩

/-- Second table: one categorical column `b`. -/
def c3t2 : Table := ⟨[⟨"b", DType.obj, [some (Val.str "y")]⟩]⟩

/-- C3 counterexample. The claim fails on `prepare_for_ml`: the instance dicts
`self.encoders`/`self.scalers` survive across calls, so the second of two
successive calls on the same processor returns an encoder map still holding
the first call's fitted encoder — unlike a freshly constructed instance. -/
theorem statelessness_counterexample :
    (prepareForMl (prepareForMl dpInit c3t1 none).1 c3t2 none).2.encoders ≠
      (prepareForMl dpInit c3t2 none).2.encoders ∧
    (prepareForMl (prepareForMl dpInit c3t1 none).1 c3t2 none).2.encoders =
      [("a", ["x"]), ("b", ["y"])] ∧
    (prepareForMl dpInit c3t2 none).2.encoders = [("b", ["y"])] := by
  have h1 : (prepareForMl (prepareForMl dpInit c3t1 none).1 c3t2 none).2.encoders =
      [("a", ["x"]), ("b", ["y"])] := rfl
  have h2 : (prepareForMl dpInit c3t2 none).2.encoders = [("b", ["y"])] := rfl
  refine ⟨?_, h1, h2⟩
  rw [h1, h2]
  simp

/-- C3 amended: `clean_dataframe` and the statistics functions take no
instance state at all, and the data/feature outputs of `prepare_for_ml`
depend only on its arguments — but the encoders/scalers of `prepare_for_ml`
are accumulated instance state: the returned encoder dict is the instance
dict, and every key fitted by an earlier call is still present after a later
call. -/
theorem prepareForMl_state (st : DPState) (t : Table) (target : Option String) :
    (prepareForMl st t target).2.data = (prepareForMl dpInit t target).2.data ∧
    (prepareForMl st t target).2.feature_columns =
      (prepareForMl dpInit t target).2.feature_columns ∧
    (prepareForMl st t target).2.encoders = (prepareForMl st t target).1.encoders ∧
    (∀ k, (dlookup k st.encoders).isSome →
      (dlookup k (prepareForMl st t target).1.encoders).isSome) := by
  refine ⟨rfl, rfl, rfl, ?_⟩
  intro k h
  exact foldl_dinsert_isSome Col.name (fun c => leClasses c.values)
    (t.cols.filter (isEncodedCol target)) k st.encoders h

/-- Witness for `prepareForMl_state` on a used instance. -/
theorem prepareForMl_state_witness :
    (dlookup "a" ([("a", ["x"])] : List (String × List String))).isSome ∧
    (dlookup "a" (prepareForMl ⟨[], [("a", ["x"])]⟩ c3t2 none).1.encoders).isSome ∧
    (prepareForMl ⟨[], [("a", ["x"])]⟩ c3t2 none).2.data =
      (prepareForMl dpInit c3t2 none).2.data := by
  refine ⟨rfl, ?_, ?_⟩
  · exact (prepareForMl_state ⟨[], [("a", ["x"])]⟩ c3t2 none).2.2.2 "a" rfl
  · exact (prepareForMl_state ⟨[], [("a", ["x"])]⟩ c3t2 none).1

/-! ### C8: correlation symmetry and degenerate variance -/

lemma pairedQ_self (xs : List (Option ℚ)) :
    pairedQ xs xs = (xs.filterMap id).map (fun a => (a, a)) := by
  induction xs with
  | nil => rfl
  | cons x xs ih =>
    cases x with
    | none => simpa [pairedQ, List.zip] using ih
    | some a => simpa [pairedQ, List.zip] using ih

lemma pairedQ_swap (xs ys : List (Option ℚ)) :
    pairedQ ys xs = (pairedQ xs ys).map Prod.swap := by
  unfold pairedQ
  rw [← List.zip_swap xs ys, List.filterMap_map]
  induction (xs.zip ys) with
  | nil => rfl
  | cons p ps ih =>
    obtain ⟨a, b⟩ := p
    cases a <;> cases b <;> simp [Function.comp, Prod.swap, ih]

lemma zip_self_eq_map (l : List ℚ) : l.zip l = l.map (fun a => (a, a)) := by
  induction l with
  | nil => rfl
  | cons x xs ih => simp [List.zip_cons_cons, ih]

lemma cSP_self (l : List ℚ) : cSP l l = cSS l := by
  unfold cSP cSS
  congr 1
  rw [zip_self_eq_map, List.map_map]
  apply List.map_congr_left
  intro a _
  simp [sq]

lemma cSP_comm (la lb : List ℚ) : cSP lb la = cSP la lb := by
  unfold cSP
  rw [← List.zip_swap la lb, List.map_map]
  congr 1
  apply List.map_congr_left
  intro p _
  obtain ⟨a, b⟩ := p
  simp [mul_comm]

lemma cSS_nonneg (l : List ℚ) : 0 ≤ cSS l := by
  unfold cSS
  apply List.sum_nonneg
  intro x hx
  obtain ⟨y, _, rfl⟩ := List.mem_map.mp hx
  positivity

lemma map_fst_diag (l : List ℚ) : (l.map (fun q => (q, q))).map Prod.fst = l := by
  rw [List.map_map]
  exact List.map_id l

lemma map_snd_diag (l : List ℚ) : (l.map (fun q => (q, q))).map Prod.snd = l := by
  rw [List.map_map]
  exact List.map_id l

lemma corrComp_comm (xs ys : List (Option ℚ)) : corrComp ys xs = corrComp xs ys := by
  unfold corrComp
  rw [pairedQ_swap]
  simp only [List.map_map]
  have hfst : (pairedQ xs ys).map (Prod.fst ∘ Prod.swap) = (pairedQ xs ys).map Prod.snd :=
    List.map_congr_left (fun p _ => rfl)
  have hsnd : (pairedQ xs ys).map (Prod.snd ∘ Prod.swap) = (pairedQ xs ys).map Prod.fst :=
    List.map_congr_left (fun p _ => rfl)
  rw [hfst, hsnd, cSP_comm, mul_comm (cSS ((pairedQ xs ys).map Prod.snd))]
  rw [mul_comm (Real.sqrt ((cSS ((pairedQ xs ys).map Prod.snd) : ℚ) : ℝ))]

lemma corrComp_self_one (xs : List (Option ℚ)) (hss : cSS (xs.filterMap id) ≠ 0) :
    corrComp xs xs = some 1 := by
  unfold corrComp
  rw [pairedQ_self xs, map_fst_diag, map_snd_diag, cSP_self]
  rw [if_neg (by simpa [mul_self_eq_zero] using hss)]
  have hpos : (0 : ℝ) ≤ ((cSS (xs.filterMap id) : ℚ) : ℝ) := by
    exact_mod_cast cSS_nonneg (xs.filterMap id)
  rw [Real.mul_self_sqrt hpos]
  have hne : ((cSS (xs.filterMap id) : ℚ) : ℝ) ≠ 0 := by exact_mod_cast hss
  rw [div_self hne]

lemma corrComp_self_nan (xs : List (Option ℚ)) (hss : cSS (xs.filterMap id) = 0) :
    corrComp xs xs = none := by
  unfold corrComp
  rw [pairedQ_self xs, map_fst_diag, map_snd_diag]
  rw [if_pos (by simp [hss])]

/-- C8: correlation is symmetric on resolvable numeric columns; correlation of
a column with itself is exactly 1 when the centered sum of squares of its
present values is nonzero; a zero-variance column produces the NaN result
(`none`), not an exception (`Except.error`). -/
theorem correlation_symmetry (t : Table) (a b : String) (xs ys : List (Option ℚ)) :
    (lookupNumVals t a = Except.ok xs → lookupNumVals t b = Except.ok ys →
      corrTable t a b = corrTable t b a) ∧
    (cSS (xs.filterMap id) ≠ 0 → corrComp xs xs = some 1) ∧
    (cSS (xs.filterMap id) = 0 → corrComp xs xs = none) ∧
    (lookupNumVals t a = Except.ok xs → cSS (xs.filterMap id) = 0 →
      corrTable t a a = Except.ok none) := by
  refine ⟨?_, corrComp_self_one xs, corrComp_self_nan xs, ?_⟩
  · intro ha hb
    unfold corrTable
    rw [ha, hb]
    show Except.ok (corrComp xs ys) = Except.ok (corrComp ys xs)
    rw [corrComp_comm xs ys]
  · intro ha hss
    unfold corrTable
    rw [ha]
    show Except.ok (corrComp xs xs) = Except.ok none
    rw [corrComp_self_nan xs hss]

/-- Concrete columns for the `correlation_symmetry` witness. -/
def c8Table : Table :=
  ⟨[⟨"a", DType.numeric, [some (Val.num 1), some (Val.num 2), some (Val.num 3)]⟩,
    ⟨"z", DType.numeric, [some (Val.num 5), some (Val.num 5), some (Val.num 5)]⟩]⟩

/-- Witness for `correlation_symmetry` on concrete columns. -/
theorem correlation_symmetry_witness :
    (lookupNumVals c8Table "a" = Except.ok [some 1, some 2, some 3] ∧
      lookupNumVals c8Table "z" = Except.ok [some 5, some 5, some 5] ∧
      cSS ([some (1 : ℚ), some 2, some 3].filterMap id) ≠ 0 ∧
      cSS ([some (5 : ℚ), some 5, some 5].filterMap id) = 0) ∧
    corrTable c8Table "a" "z" = corrTable c8Table "z" "a" ∧
    corrComp [some (1 : ℚ), some 2, some 3] [some 1, some 2, some 3] = some 1 ∧
    corrComp [some (5 : ℚ), some 5, some 5] [some 5, some 5, some 5] = none ∧
    corrTable c8Table "z" "z" = Except.ok none := by
  have e1 : ([some (1 : ℚ), some 2, some 3].filterMap id) = [1, 2, 3] := rfl
  have e2 : ([some (5 : ℚ), some 5, some 5].filterMap id) = [5, 5, 5] := rfl
  have hne : cSS ([some (1 : ℚ), some 2, some 3].filterMap id) ≠ 0 := by
    rw [e1]
    norm_num [cSS, meanQ]
  have hz : cSS ([some (5 : ℚ), some 5, some 5].filterMap id) = 0 := by
    rw [e2]
    norm_num [cSS, meanQ]
  refine ⟨⟨rfl, rfl, hne, hz⟩, ?_, ?_, ?_, ?_⟩
  · exact (correlation_symmetry c8Table "a" "z"
      [some 1, some 2, some 3] [some 5, some 5, some 5]).1 rfl rfl
  · exact (correlation_symmetry c8Table "a" "z"
      [some 1, some 2, some 3] [some 5, some 5, some 5]).2.1 hne
  · exact (correlation_symmetry c8Table "a" "z"
      [some 5, some 5, some 5] [some 1, some 2, some 3]).2.2.1 hz
  · exact (correlation_symmetry c8Table "z" "z"
      [some 5, some 5, some 5] [some 1, some 2, some 3]).2.2.2 rfl hz

end TDS
